import Mathlib

/-!
# Mercuria backend: shallow embedding and verification

This file embeds the money-moving core of the Mercuria backend (Go) in
Lean 4 and proves (or refutes) the specification claims about it.

Conventions of the embedding:

* Go decimal-amount strings are Lean `String`s; their character lists are
  processed directly, mirroring the Go code's `strings`/`regexp` usage.
* Exact rational numbers are represented by the executable fraction type
  `MQ` (an integer numerator over a positive integer denominator, compared
  by cross-multiplication), so that every arithmetic step reduces in the
  kernel.
* `math/big.Float` values (binary floating point with a mantissa precision
  in bits, round-to-nearest-even) are modelled by `roundPrec p q`: the
  nearest fraction with a `p`-bit mantissa. The model covers the normal
  range (no overflow / subnormals), which is ample for monetary amounts.
* Go `float64` arithmetic (used by the transaction service's
  `CalculateBatchTotal` and the older ledger helpers) is `roundPrec 53`.
* Database tables are Lean lists kept in insertion order; the monotone
  `now`/`nextId` counters in each state model `CURRENT_TIMESTAMP` and
  generated ids, so insertion order coincides with `created_at ASC`.
* `WithTransaction` (rollback on error) is modelled by returning the
  original state when the transaction body errors.
-/

namespace Mercuria

set_option maxRecDepth 10000
set_option maxHeartbeats 2000000

/-! ## Executable fractions -/

/-- An executable fraction: `num / den` with `den` kept positive by every
constructor below. Fractions are not normalised; value-level equality and
order are decided by cross-multiplication, so all operations reduce in the
kernel. -/
structure MQ where
  num : Int
  den : Int
  deriving Repr, DecidableEq

/-- Embed an integer. -/
def MQ.ofInt (n : Int) : MQ := ⟨n, 1⟩

/-- Value-level equality (cross-multiplication; denominators positive). -/
def MQ.qeq (a b : MQ) : Bool := a.num * b.den = b.num * a.den

/-- Value-level strict order (denominators positive). -/
def MQ.qlt (a b : MQ) : Bool := a.num * b.den < b.num * a.den

/-- Value-level order (denominators positive). -/
def MQ.qle (a b : MQ) : Bool := a.num * b.den ≤ b.num * a.den

def MQ.add (a b : MQ) : MQ := ⟨a.num * b.den + b.num * a.den, a.den * b.den⟩

def MQ.sub (a b : MQ) : MQ := ⟨a.num * b.den - b.num * a.den, a.den * b.den⟩

def MQ.mul (a b : MQ) : MQ := ⟨a.num * b.num, a.den * b.den⟩

def MQ.neg (a : MQ) : MQ := ⟨-a.num, a.den⟩

/-- Division by a fraction with positive value. -/
def MQ.divPos (a b : MQ) : MQ := ⟨a.num * b.den, a.den * b.num⟩

/-- Absolute value. -/
def MQ.abs (a : MQ) : MQ := ⟨a.num.natAbs, a.den⟩

/-- Floor of a fraction (denominator positive). -/
def MQ.floor (a : MQ) : Int := a.num.fdiv a.den

/-- The rational value of a fraction, for stating mathematical content. -/
noncomputable def MQ.val (a : MQ) : ℚ := (a.num : ℚ) / (a.den : ℚ)

/-! ## Decimal strings and binary floating-point model -/

/-- Lexicographic order on character lists. -/
def charListLt : List Char → List Char → Bool
  | [], [] => false
  | [], _ :: _ => true
  | _ :: _, [] => false
  | a :: as, b :: bs => if a < b then true else if b < a then false else charListLt as bs

/-- Go's `<` on strings: byte-wise lexicographic comparison of the UTF-8
encodings, which (UTF-8 being order-preserving) equals codepoint-wise
lexicographic comparison of the characters. -/
def goStringLess (a b : String) : Bool := charListLt a.data b.data

/-- Model of Go `strings.TrimSpace`: drop whitespace from both ends. -/
def goTrim (s : String) : String :=
  ⟨((s.data.dropWhile Char.isWhitespace).reverse.dropWhile Char.isWhitespace).reverse⟩

/-- Numeric value of a list of decimal digit characters. -/
def digitsVal (l : List Char) : Nat :=
  l.foldl (fun a c => 10 * a + (c.toNat - '0'.toNat)) 0

/-- Matcher for the amount regex `^\d+(\.\d\x7b1,4\x7d)?$` used by both the
transaction and the wallet service (`amountRegex` in the Go sources). -/
def amountRegexAccepts (s : String) : Bool :=
  let ds := s.data
  let ip := ds.takeWhile (fun c => c ≠ '.')
  let rest := ds.dropWhile (fun c => c ≠ '.')
  ip ≠ [] && ip.all Char.isDigit &&
    (rest = [] ||
      (rest.head? = some '.' && rest.tail ≠ [] && rest.tail.length ≤ 4 &&
        rest.tail.all Char.isDigit))

/-- Exact value of a decimal string with optional leading minus, as
accepted by `big.Float.SetString` / `fmt.Sscanf("%f")` for the strings this
codebase produces (plain `[-]digits[.digits]`; exponent forms are never
produced by the code and are not modelled). `none` on malformed input,
mirroring the parse failure of the Go parsers. -/
def parseDec (s : String) : Option MQ :=
  let ds := s.data
  let neg := ds.head? = some '-'
  let body := if neg then ds.tail else ds
  let ip := body.takeWhile (fun c => c ≠ '.')
  let rest := body.dropWhile (fun c => c ≠ '.')
  if ip = [] || ¬ ip.all Char.isDigit then none
  else
    let sgn : Int := if neg then -1 else 1
    match rest with
    | [] => some ⟨sgn * digitsVal ip, 1⟩
    | c :: frac =>
      if c = '.' && frac ≠ [] && frac.all Char.isDigit then
        some ⟨sgn * (digitsVal ip * 10 ^ frac.length + digitsVal frac),
          (10 : Int) ^ frac.length⟩
      else none

/-- Fuel-bounded base-2 logarithm on `Nat` (`natLog2F fuel n = ⌊log2 n⌋`
for `n ≥ 1` and enough fuel); structural so the kernel can evaluate it. -/
def natLog2F : Nat → Nat → Nat
  | 0, _ => 0
  | fuel + 1, n => if n < 2 then 0 else natLog2F fuel (n / 2) + 1

/-- `2 ^ e` as a fraction, for an integer exponent. -/
def pow2Q (e : Int) : MQ :=
  if 0 ≤ e then ⟨(2 : Int) ^ e.toNat, 1⟩ else ⟨1, (2 : Int) ^ (-e).toNat⟩

/-- `⌊log2 q⌋` for a positive fraction `q`. -/
def floorLog2Q (q : MQ) : Int :=
  let a : Int := natLog2F 4096 q.num.natAbs
  let b : Int := natLog2F 4096 q.den.natAbs
  let c : Int := a - b
  if (pow2Q (c + 1)).qle q then c + 1 else if q.qlt (pow2Q c) then c - 1 else c

/-- Round a fraction to the nearest integer, ties to even (the IEEE-754
default rounding used by Go's `float64` and `big.Float`). -/
def roundHalfEven (x : MQ) : Int :=
  let f : Int := x.floor
  let r : MQ := x.sub (MQ.ofInt f)
  if r.qlt ⟨1, 2⟩ then f
  else if MQ.qlt ⟨1, 2⟩ r then f + 1
  else if f % 2 = 0 then f else f + 1

/-- Round a fraction to a binary floating-point value with a `p`-bit
mantissa, round-to-nearest-even. `roundPrec 53` models Go `float64`
arithmetic results, `roundPrec 64` models `big.Float` at its default
precision 64 (the precision `SetString`/`Add`/`Sub` use in this code). -/
def roundPrec (p : Nat) (q : MQ) : MQ :=
  if q.qeq ⟨0, 1⟩ then ⟨0, 1⟩
  else
    let a : MQ := q.abs
    let e : Int := floorLog2Q a - (p - 1 : Nat)
    let m : Int := roundHalfEven (a.divPos (pow2Q e))
    if q.num < 0 then (MQ.ofInt m).mul (pow2Q e) |>.neg
    else (MQ.ofInt m).mul (pow2Q e)

/-- Left-pad the decimal rendering of `k` with zeros to 4 digits. -/
def pad4 (k : Nat) : String :=
  if k < 10 then "000" ++ toString k
  else if k < 100 then "00" ++ toString k
  else if k < 1000 then "0" ++ toString k
  else toString k

/-- Format a fraction with exactly 4 fractional digits, rounding ties to
even: the model of Go's `%.4f` / `big.Float.Text('f', 4)` applied to the
exact value held by the float. -/
def formatFixed4 (q : MQ) : String :=
  let n : Int := roundHalfEven (q.mul (MQ.ofInt 10000))
  let m : Nat := n.natAbs
  (if n < 0 then "-" else "") ++ toString (m / 10000) ++ "." ++ pad4 (m % 10000)

/-- Parse a string to a `float64` value (the exact fraction held by the
nearest binary64), as `fmt.Sscanf(s, "%f", &x)` does. -/
def parseFloat64 (s : String) : Option MQ :=
  (parseDec s).map (roundPrec 53)

/-- IEEE-754 binary64 addition on the modelled values. -/
def f64add (a b : MQ) : MQ := roundPrec 53 (a.add b)

/-- Parse a string into a `big.Float` of precision 64, as
`new(big.Float).SetString` does (a fresh `big.Float` has precision 0 and
`SetString` raises it to 64). -/
def parseBig64 (s : String) : Option MQ :=
  (parseDec s).map (roundPrec 64)

/-! ## Shared events and rows -/

/-- `outbox.OutboxEvent` (`pkg/outbox`). The JSON payload map is projected
away: no claim in this development depends on payload contents, only on
which events exist. Modelled from the spec: the outbox repository's
`SaveEvent` (whose implementation is not under `src/`, only its tests) is
an insert of a `pending` row in the caller's database transaction. -/
structure OutboxEvent where
  aggregateId : String
  eventType : String
  topic : String
  deriving Repr, DecidableEq

/-! ## Transaction service: validation (`internal/transaction/validation.go`) -/

namespace Txn

/-- `CreateTransactionRequest` (transaction service models). -/
structure CreateTransactionRequest where
  fromWalletID : String
  toWalletID : String
  amount : String
  description : String
  idempotencyKey : String
  deriving Repr, DecidableEq

/-- `BatchTransferItem`. -/
structure BatchTransferItem where
  toWalletID : String
  amount : String
  description : String
  deriving Repr, DecidableEq

/-- `CreateBatchTransactionRequest`. -/
structure CreateBatchTransactionRequest where
  fromWalletID : String
  transfers : List BatchTransferItem
  idempotencyKey : String
  deriving Repr, DecidableEq

/-- `ValidateAmount` (`internal/transaction/validation.go:17`): trim, match
the amount regex, then reject the five literal zero spellings. -/
def ValidateAmount (amount : String) : Except String Unit :=
  let amount := goTrim amount
  if amount = "" then .error "amount is required"
  else if ¬ amountRegexAccepts amount then
    .error "invalid amount format (must be positive number with max 4 decimals)"
  else if amount = "0" ∨ amount = "0.0" ∨ amount = "0.00" ∨ amount = "0.000" ∨
      amount = "0.0000" then
    .error "amount must be greater than zero"
  else .ok ()

/-- `ValidateCreateTransactionRequest` (`validation.go:38`). -/
def ValidateCreateTransactionRequest (req : CreateTransactionRequest) :
    Except String Unit :=
  if goTrim req.fromWalletID = "" then .error "from_wallet_id is required"
  else if goTrim req.toWalletID = "" then .error "to_wallet_id is required"
  else if req.fromWalletID = req.toWalletID then
    .error "cannot transfer to the same wallet"
  else match ValidateAmount req.amount with
    | .error e => .error e
    | .ok _ =>
      if goTrim req.idempotencyKey = "" then .error "idempotency_key is required"
      else .ok ()

/-- The per-item loop of `ValidateCreateBatchTransactionRequest`
(`validation.go:93`), carrying the `recipients` duplicate-detection set. -/
def validateBatchItems (fromW : String) (seen : List String) :
    List BatchTransferItem → Except String Unit
  | [] => .ok ()
  | t :: rest =>
    if goTrim t.toWalletID = "" then .error "to_wallet_id is required"
    else if t.toWalletID = fromW then .error "cannot transfer to source wallet"
    else if t.toWalletID ∈ seen then .error "duplicate recipient"
    else match ValidateAmount t.amount with
      | .error e => .error e
      | .ok _ => validateBatchItems fromW (t.toWalletID :: seen) rest

/-- `ValidateCreateBatchTransactionRequest` (`validation.go:68`). -/
def ValidateCreateBatchTransactionRequest (req : CreateBatchTransactionRequest) :
    Except String Unit :=
  if goTrim req.fromWalletID = "" then .error "from_wallet_id is required"
  else if goTrim req.idempotencyKey = "" then .error "idempotency_key is required"
  else if req.transfers = [] then .error "transfers list cannot be empty"
  else if 100 < req.transfers.length then .error "batch cannot exceed 100 transfers"
  else validateBatchItems req.fromWalletID [] req.transfers

/-- The accumulation loop of `CalculateBatchTotal` (`validation.go:164`):
`total` is a Go `float64`, each amount is parsed with `fmt.Sscanf("%f")`
and added with native `float64` addition. -/
def batchTotalLoop (total : MQ) : List BatchTransferItem → Except String MQ
  | [] => .ok total
  | t :: rest =>
    match parseFloat64 t.amount with
    | none => .error ("invalid amount in batch: " ++ t.amount)
    | some a => batchTotalLoop (f64add total a) rest

/-- `CalculateBatchTotal` (`validation.go:164`): float64 accumulation,
formatted with `%.4f`. -/
def CalculateBatchTotal (transfers : List BatchTransferItem) :
    Except String String :=
  match batchTotalLoop (MQ.ofInt 0) transfers with
  | .error e => .error e
  | .ok total => .ok (formatFixed4 total)

/-- `hasSufficientBalance` (`internal/transaction/service.go` and
`internal/wallet/service.go:434`, identical): compare two `big.Float`s
parsed with `SetString`, whose result is ignored, leaving the zero value
on a failed parse. -/
def hasSufficientBalance (balance amount : String) : Bool :=
  let b := (parseBig64 balance).getD (MQ.ofInt 0)
  let a := (parseBig64 amount).getD (MQ.ofInt 0)
  a.qle b

end Txn

/-! ## Wallet service (`internal/wallet/service.go`) -/

namespace WalletSvc

/-- `Wallet` (wallet service models). -/
structure Wallet where
  id : String
  userId : String
  currency : String
  balance : String
  status : String
  deriving Repr, DecidableEq

/-- `WalletEvent` (append-only journal row). The JSON metadata map is kept
as the pairs the `Transfer` code writes. -/
structure WalletEvent where
  walletId : String
  eventType : String
  amount : String
  balanceBefore : String
  balanceAfter : String
  metadata : List (String × String)
  deriving Repr, DecidableEq

/-- `TransferRequest` (internal transfer endpoint body). -/
structure TransferRequest where
  fromWalletID : String
  toWalletID : String
  amount : String
  idempotencyKey : String
  deriving Repr, DecidableEq

/-- State owned by the wallet service: its Redis idempotency keys and
held distributed locks, and its database tables. Modelled from the spec:
the Redis client (`internal/common/redis`, not under `src/`) implements
`CheckIdempotency`/`SetIdempotency` as key presence with TTL and
`AcquireLock` as a non-blocking `SETNX`-style lock; TTL expiry is not
modelled (no claim spans 30 minutes). -/
structure State where
  idem : List String
  locks : List String
  wallets : List Wallet
  events : List WalletEvent
  outbox : List OutboxEvent
  deriving Repr, DecidableEq

/-- Row lookup by wallet id (`repo.GetWallet` / `GetWalletForUpdate`). -/
def getWalletRow (s : State) (id : String) : Option Wallet :=
  s.wallets.find? (fun w => w.id = id)

/-- `repo.UpdateBalanceWithLock`: set the balance of one row. -/
def updateBalance (s : State) (id newBalance : String) : State :=
  { s with wallets := s.wallets.map (fun w =>
      if w.id = id then { w with balance := newBalance } else w) }

/-- `addAmounts` (`service.go:404`): `big.Float` addition, `Text('f', 4)`. -/
def addAmounts (a b : String) : Except String String :=
  match parseBig64 a with
  | none => .error ("invalid amount: " ++ a)
  | some av =>
    match parseBig64 b with
    | none => .error ("invalid amount: " ++ b)
    | some bv => .ok (formatFixed4 (roundPrec 64 (av.add bv)))

/-- `subtractAmounts` (`service.go:419`): `big.Float` subtraction,
`Text('f', 4)`; no negativity check in the wallet service (the caller
checks `hasSufficientBalance` first). -/
def subtractAmounts (a b : String) : Except String String :=
  match parseBig64 a with
  | none => .error ("invalid amount: " ++ a)
  | some av =>
    match parseBig64 b with
    | none => .error ("invalid amount: " ++ b)
    | some bv => .ok (formatFixed4 (roundPrec 64 (av.sub bv)))

/-- The distributed-lock acquisition order of `Transfer`
(`service.go:469-473`): `walletIDs` starts as `[from, to]` and is swapped
when `from > to` (Go byte-lexicographic string order, `goStringLess`). -/
def kvLockOrder (fromId toId : String) : List String :=
  if goStringLess toId fromId then [toId, fromId] else [fromId, toId]

/-- The row-lock (`SELECT ... FOR UPDATE`) acquisition order of `Transfer`
(`service.go:490-496`): always source first, then destination. -/
def rowLockOrder (fromId toId : String) : List String :=
  [fromId, toId]

/-- The database-transaction body of `Transfer` (`service.go:488-619`):
lock and read both rows, check statuses and funds, compute and write both
balances, append the two wallet events, enqueue the two outbox rows. -/
def transferTxBody (req : TransferRequest) (s : State) : Except String State :=
  match getWalletRow s req.fromWalletID with
  | none => .error "source wallet error: wallet not found"
  | some fromW =>
    match getWalletRow s req.toWalletID with
    | none => .error "destination wallet error: wallet not found"
    | some toW =>
      if fromW.status ≠ "active" then .error "source wallet is not active"
      else if toW.status ≠ "active" then .error "destination wallet is not active"
      else if ¬ Txn.hasSufficientBalance fromW.balance req.amount then
        .error "insufficient balance"
      else
        match subtractAmounts fromW.balance req.amount with
        | .error e => .error ("failed to calculate source balance: " ++ e)
        | .ok newFromBalance =>
          match addAmounts toW.balance req.amount with
          | .error e => .error ("failed to calculate destination balance: " ++ e)
          | .ok newToBalance =>
            let s := updateBalance s req.fromWalletID newFromBalance
            let s := updateBalance s req.toWalletID newToBalance
            let fromEvent : WalletEvent :=
              { walletId := req.fromWalletID
                eventType := "wallet.transfer_out"
                amount := req.amount
                balanceBefore := fromW.balance
                balanceAfter := newFromBalance
                metadata := [("to_wallet_id", req.toWalletID),
                             ("idempotency_key", req.idempotencyKey)] }
            let toEvent : WalletEvent :=
              { walletId := req.toWalletID
                eventType := "wallet.transfer_in"
                amount := req.amount
                balanceBefore := toW.balance
                balanceAfter := newToBalance
                metadata := [("from_wallet_id", req.fromWalletID),
                             ("idempotency_key", req.idempotencyKey)] }
            let s := { s with events := s.events ++ [fromEvent, toEvent] }
            let s := { s with outbox := s.outbox ++
              [{ aggregateId := req.fromWalletID
                 eventType := "wallet.balance_updated"
                 topic := "wallet.balance_updated" },
               { aggregateId := req.toWalletID
                 eventType := "wallet.balance_updated"
                 topic := "wallet.balance_updated" }] }
            .ok s

/-- `Transfer` (`service.go:454`). The distributed locks are acquired in
`kvLockOrder` and released by `defer` on every return path, so their net
effect is nil unless a lock is already held at entry; the database
transaction rolls back on error; the idempotency key is set only after a
successful commit. -/
def Transfer (req : TransferRequest) (s : State) :
    Except String Unit × State :=
  if req.amount = "" ∨ req.idempotencyKey = "" then
    (.error "amount and idempotency_key are required", s)
  else if req.idempotencyKey ∈ s.idem then
    (.error "duplicate request: idempotency key already used", s)
  else if (kvLockOrder req.fromWalletID req.toWalletID).any
      (fun id => ("wallet:" ++ id) ∈ s.locks) then
    (.error "wallet is locked, please try again", s)
  else
    match transferTxBody req s with
    | .error e => (.error ("transfer failed: " ++ e), s)
    | .ok s1 => (.ok (), { s1 with idem := s1.idem ++ [req.idempotencyKey] })

end WalletSvc

/-! ## Transaction service (`internal/transaction/service.go`, `repository.go`) -/

namespace Txn

/-- `Transaction` row (`transactions` table). -/
structure TxnRow where
  id : String
  fromWalletId : String
  toWalletId : String
  amount : String
  currency : String
  txType : String
  status : String
  description : String
  idempotencyKey : String
  scheduledAt : Option Nat
  processedAt : Option Nat
  failureReason : Option String
  deriving Repr, DecidableEq

/-- `BatchTransaction` row (`batch_transactions` table). -/
structure BatchRow where
  id : String
  fromWalletId : String
  totalAmount : String
  currency : String
  status : String
  idempotencyKey : String
  deriving Repr, DecidableEq

/-- Combined state visible to the transaction service: its own Redis keys
and database tables, plus the wallet service it reaches over HTTP.
`nextId` feeds generated row ids; `now` is the database clock. -/
structure GState where
  txnIdem : List String
  txns : List TxnRow
  batches : List BatchRow
  outbox : List OutboxEvent
  wsvc : WalletSvc.State
  nextId : Nat
  now : Nat
  deriving Repr, DecidableEq

/-- `getWalletFromService` (`service.go:82`): remote wallet lookup; 404
becomes an error, and a non-`active` wallet is rejected by the client. -/
def getWalletFromService (g : GState) (walletID : String) :
    Except String WalletSvc.Wallet :=
  match WalletSvc.getWalletRow g.wsvc walletID with
  | none => .error "wallet not found"
  | some w => if w.status ≠ "active" then .error "wallet is not active" else .ok w

/-- `executeWalletTransfer` (`service.go:124`): POST to the wallet
service's internal transfer endpoint; a non-200 response surfaces as an
error, and any state the wallet service committed stays committed. -/
def executeWalletTransfer (g : GState) (req : WalletSvc.TransferRequest) :
    Except String Unit × WalletSvc.State :=
  match WalletSvc.Transfer req g.wsvc with
  | (.error e, ws) => (.error ("transfer failed: " ++ e), ws)
  | (.ok _, ws) => (.ok (), ws)

/-- `repo.CreateTransactionTx` (`repository.go:60`): insert a `transactions`
row; the `UNIQUE` constraint on `idempotency_key` makes the insert fail if
a row with the same key exists. -/
def createTransactionTx (g : GState) (t : TxnRow) :
    Except String (TxnRow × GState) :=
  if g.txns.any (fun r => r.idempotencyKey = t.idempotencyKey) then
    .error "failed to create transaction: duplicate key value"
  else
    let row := { t with id := "txn-" ++ toString g.nextId }
    .ok (row, { g with txns := g.txns ++ [row], nextId := g.nextId + 1 })

/-- `CreateP2PTransfer` (`service.go:171`): validate, check the Redis
idempotency key, resolve both wallets remotely, require equal currencies
and sufficient funds, execute the remote wallet transfer, then in one
local database transaction insert the `transactions` row and the
`transaction.completed` outbox row, and finally set the Redis key. -/
def CreateP2PTransfer (req : CreateTransactionRequest) (g : GState) :
    Except String TxnRow × GState :=
  match ValidateCreateTransactionRequest req with
  | .error e => (.error ("validation failed: " ++ e), g)
  | .ok _ =>
  if req.idempotencyKey ∈ g.txnIdem then
    (.error "duplicate request: idempotency key already used", g)
  else
  match getWalletFromService g req.fromWalletID with
  | .error e => (.error ("source wallet error: " ++ e), g)
  | .ok fromW =>
  match getWalletFromService g req.toWalletID with
  | .error e => (.error ("destination wallet error: " ++ e), g)
  | .ok toW =>
  if fromW.currency ≠ toW.currency then
    (.error ("currency mismatch: " ++ fromW.currency ++ " != " ++ toW.currency), g)
  else if ¬ hasSufficientBalance fromW.balance req.amount then
    (.error "insufficient balance", g)
  else
    match executeWalletTransfer g
        { fromWalletID := req.fromWalletID, toWalletID := req.toWalletID,
          amount := req.amount, idempotencyKey := req.idempotencyKey } with
    | (.error e, ws) => (.error ("wallet transfer failed: " ++ e), { g with wsvc := ws })
    | (.ok _, ws) =>
      let g := { g with wsvc := ws }
      let txn : TxnRow :=
        { id := "", fromWalletId := req.fromWalletID, toWalletId := req.toWalletID,
          amount := req.amount, currency := fromW.currency, txType := "p2p",
          status := "completed", description := req.description,
          idempotencyKey := req.idempotencyKey, scheduledAt := none,
          processedAt := none, failureReason := none }
      match createTransactionTx g txn with
      | .error e => (.error ("failed to create transaction: " ++ e), g)
      | .ok (row, g1) =>
        let g2 := { g1 with outbox := g1.outbox ++
          [({ aggregateId := row.id, eventType := "transaction.completed",
              topic := "transaction.completed" } : OutboxEvent)] }
        (.ok row, { g2 with txnIdem := g2.txnIdem ++ [req.idempotencyKey] })

/-- The per-item loop of `CreateBatchTransfer` (`service.go:330-371`),
running inside the local database transaction but performing remote wallet
transfers that commit independently. On an item failure the error carries
the wallet-service state as already mutated, since only the local
transaction rolls back. -/
def batchLoop (fromW : WalletSvc.Wallet) (batchKey fromId : String) (i : Nat) :
    List BatchTransferItem → GState → List TxnRow →
    Except (String × WalletSvc.State) (GState × List TxnRow)
  | [], g, acc => .ok (g, acc)
  | t :: rest, g, acc =>
    match getWalletFromService g t.toWalletID with
    | .error e => .error ("recipient error: " ++ e, g.wsvc)
    | .ok toW =>
      if fromW.currency ≠ toW.currency then .error ("currency mismatch", g.wsvc)
      else
        match executeWalletTransfer g
            { fromWalletID := fromId, toWalletID := t.toWalletID,
              amount := t.amount,
              idempotencyKey := batchKey ++ "-" ++ toString i } with
        | (.error e, ws) => .error ("execution failed: " ++ e, ws)
        | (.ok _, ws) =>
          let g := { g with wsvc := ws }
          let txn : TxnRow :=
            { id := "", fromWalletId := fromId, toWalletId := t.toWalletID,
              amount := t.amount, currency := fromW.currency, txType := "batch",
              status := "completed", description := t.description,
              idempotencyKey := batchKey ++ "-" ++ toString i, scheduledAt := none,
              processedAt := none, failureReason := none }
          match createTransactionTx g txn with
          | .error e => .error ("record creation failed: " ++ e, g.wsvc)
          | .ok (row, g1) => batchLoop fromW batchKey fromId (i + 1) rest g1 (acc ++ [row])

/-- `repo.CreateBatchTransactionTx` (`repository.go:336`): insert the
`batch_transactions` row; `idempotency_key` is `UNIQUE`. -/
def createBatchTransactionTx (g : GState) (b : BatchRow) :
    Except String (BatchRow × GState) :=
  if g.batches.any (fun r => r.idempotencyKey = b.idempotencyKey) then
    .error "failed to create batch transaction: duplicate key value"
  else
    let row := { b with id := "batch-" ++ toString g.nextId }
    .ok (row, { g with batches := g.batches ++ [row], nextId := g.nextId + 1 })

/-- `CreateBatchTransfer` (`service.go:276`): validate, check the batch
Redis key, total with `CalculateBatchTotal`, check the source balance,
then inside one local database transaction create the batch row, run each
item (remote transfer + local `transactions` row), mark the batch
`completed` and enqueue `batch.completed`. A failing item rolls back the
local transaction only: the wallet transfers already executed for earlier
items remain committed in the wallet service, and the Redis key is not
set. -/
def CreateBatchTransfer (req : CreateBatchTransactionRequest) (g : GState) :
    Except String (BatchRow × List TxnRow) × GState :=
  match ValidateCreateBatchTransactionRequest req with
  | .error e => (.error ("validation failed: " ++ e), g)
  | .ok _ =>
  if req.idempotencyKey ∈ g.txnIdem then
    (.error "duplicate request: idempotency key already used", g)
  else
  match CalculateBatchTotal req.transfers with
  | .error e => (.error ("failed to calculate total: " ++ e), g)
  | .ok totalAmount =>
  match getWalletFromService g req.fromWalletID with
  | .error e => (.error ("source wallet error: " ++ e), g)
  | .ok fromW =>
  if ¬ hasSufficientBalance fromW.balance totalAmount then
    (.error "insufficient balance for batch", g)
  else
    let batch0 : BatchRow :=
      { id := "", fromWalletId := req.fromWalletID, totalAmount := totalAmount,
        currency := fromW.currency, status := "pending",
        idempotencyKey := req.idempotencyKey }
    match createBatchTransactionTx g batch0 with
    | .error e => (.error ("failed to create batch: " ++ e), g)
    | .ok (batch, g1) =>
      match batchLoop fromW req.idempotencyKey req.fromWalletID 0
          req.transfers g1 [] with
      | .error (e, ws) => (.error e, { g with wsvc := ws })
      | .ok (g2, rows) =>
        let g3 := { g2 with
          batches := g2.batches.map (fun b : BatchRow =>
            if b.id = batch.id then { b with status := "completed" } else b),
          outbox := g2.outbox ++
            [({ aggregateId := batch.id, eventType := "batch.completed",
                topic := "transaction.completed" } : OutboxEvent)] }
        (.ok ({ batch with status := "completed" }, rows),
          { g3 with txnIdem := g3.txnIdem ++ [req.idempotencyKey] })

/-- The `ORDER BY scheduled_at ASC` ordering relation. -/
def schedLE (a b : TxnRow) : Prop := a.scheduledAt.getD 0 ≤ b.scheduledAt.getD 0

instance : DecidableRel schedLE := fun _ _ => Nat.decLe _ _

instance : IsTotal TxnRow schedLE := ⟨fun _ _ => Nat.le_total _ _⟩

instance : IsTrans TxnRow schedLE := ⟨fun _ _ _ => Nat.le_trans⟩

/-- `repo.GetScheduledTransactions` (`repository.go:206`): rows with
`status = 'scheduled' AND scheduled_at <= CURRENT_TIMESTAMP`, ordered by
`scheduled_at` ascending, at most `limit` of them (SQL `NULL` timestamps
satisfy no comparison). -/
def GetScheduledTransactions (g : GState) (limit : Nat) : List TxnRow :=
  (List.insertionSort schedLE (g.txns.filter (fun t =>
    t.status = "scheduled" &&
      match t.scheduledAt with
      | some ts => ts ≤ g.now
      | none => false))).take limit

/-- `repo.UpdateTransactionStatusTx` (`repository.go:162`): set `status`
and stamp `processed_at`; errors when no row matches. -/
def updateTransactionStatusTx (g : GState) (id status : String) :
    Except String GState :=
  if g.txns.any (fun t => t.id = id) then
    .ok { g with txns := g.txns.map (fun t =>
      if t.id = id then { t with status := status, processedAt := some g.now }
      else t) }
  else .error "transaction not found"

/-- `repo.MarkTransactionAsFailed` (`repository.go:183`): set
`status='failed'`, record `failure_reason`, stamp `processed_at`. The
dispatcher ignores its return value, so only the state matters. -/
def markTransactionAsFailed (g : GState) (id reason : String) : GState :=
  { g with txns := g.txns.map (fun t =>
      if t.id = id then
        { t with
          status := "failed"
          failureReason := some reason
          processedAt := some g.now }
      else t) }

/-- `executeScheduledTransfer` (`service.go:503`): resolve both wallets,
check funds, execute the remote wallet transfer under the derived key
`scheduled-{transaction_id}`, then in one local database transaction mark
the row `completed` and enqueue `transaction.completed`. -/
def executeScheduledTransfer (txn : TxnRow) (g : GState) :
    Except String Unit × GState :=
  match getWalletFromService g txn.fromWalletId with
  | .error e => (.error ("source wallet error: " ++ e), g)
  | .ok fromW =>
  match getWalletFromService g txn.toWalletId with
  | .error e => (.error ("destination wallet error: " ++ e), g)
  | .ok _ =>
  if ¬ hasSufficientBalance fromW.balance txn.amount then
    (.error "insufficient balance", g)
  else
    match executeWalletTransfer g
        { fromWalletID := txn.fromWalletId, toWalletID := txn.toWalletId,
          amount := txn.amount, idempotencyKey := "scheduled-" ++ txn.id } with
    | (.error e, ws) => (.error ("wallet transfer failed: " ++ e), { g with wsvc := ws })
    | (.ok _, ws) =>
      let g := { g with wsvc := ws }
      match updateTransactionStatusTx g txn.id "completed" with
      | .error e => (.error e, g)
      | .ok g1 =>
        (.ok (), { g1 with outbox := g1.outbox ++
          [({ aggregateId := txn.id, eventType := "transaction.completed",
              topic := "transaction.completed" } : OutboxEvent)] })

/-- The dispatch loop of `ProcessScheduledTransfers` (`service.go:487`):
execute each due row, marking it failed (and emitting nothing) when
execution errors. -/
def processLoop : List TxnRow → GState → Nat → Nat × GState
  | [], g, processed => (processed, g)
  | txn :: rest, g, processed =>
    match executeScheduledTransfer txn g with
    | (.error e, g1) => processLoop rest (markTransactionAsFailed g1 txn.id e) processed
    | (.ok _, g1) => processLoop rest g1 (processed + 1)

/-- `ProcessScheduledTransfers` (`service.go:473`): select up to 100 due
scheduled rows and dispatch each. -/
def ProcessScheduledTransfers (g : GState) : Nat × GState :=
  processLoop (GetScheduledTransactions g 100) g 0

end Txn

/-! ## Ledger service (`internal/ledger`) -/

namespace Ledger

/-- `LedgerEntry` (`internal/ledger/models.go`); the JSON metadata map is
kept as the pairs `CreateLedgerEntries` writes. -/
structure LedgerEntry where
  id : String
  transactionId : String
  walletId : String
  entryType : String
  amount : String
  currency : String
  balance : String
  description : String
  metadata : List (String × String)
  createdAt : Nat
  deriving Repr, DecidableEq

/-- `CreateLedgerEntriesRequest`. -/
structure CreateLedgerEntriesRequest where
  transactionId : String
  fromWalletId : String
  toWalletId : String
  amount : String
  currency : String
  description : String
  deriving Repr, DecidableEq

/-- Ledger service state: the append-only `ledger_entries` table (kept in
`created_at` order) and the service's outbox. -/
structure State where
  entries : List LedgerEntry
  outbox : List OutboxEvent
  nextId : Nat
  now : Nat
  deriving Repr, DecidableEq

/-- `repo.GetEntriesByTransaction` (`internal/ledger/repository.go:158`):
all entries of one transaction, `ORDER BY created_at ASC` (the list is
kept in insertion = `created_at` order). -/
def GetEntriesByTransaction (s : State) (transactionID : String) :
    List LedgerEntry :=
  s.entries.filter (fun e => e.transactionId = transactionID)

/-- `repo.GetLatestBalance` (`repository.go:201`): the `balance` of the
newest entry of the wallet, `"0.0000"` when it has none. -/
def GetLatestBalance (s : State) (walletID : String) : String :=
  match (s.entries.filter (fun e => e.walletId = walletID)).getLast? with
  | none => "0.0000"
  | some e => e.balance

/-- The current ledger `addAmounts` (`internal/ledger/service.go`, the
fixed service variant): `big.Float` addition, `Text('f', 4)`. -/
def addAmounts (a b : String) : Except String String :=
  match parseBig64 a with
  | none => .error ("invalid amount: " ++ a)
  | some av =>
    match parseBig64 b with
    | none => .error ("invalid amount: " ++ b)
    | some bv => .ok (formatFixed4 (roundPrec 64 (av.add bv)))

/-- The current ledger `subtractAmounts` (fixed service variant,
`service.go`): `big.Float` subtraction with **no** negativity check — the
ledger records what happened, and the result may be negative. -/
def subtractAmounts (a b : String) : Except String String :=
  match parseBig64 a with
  | none => .error ("invalid amount: " ++ a)
  | some av =>
    match parseBig64 b with
    | none => .error ("invalid amount: " ++ b)
    | some bv => .ok (formatFixed4 (roundPrec 64 (av.sub bv)))

/-- The superseded ledger `addAmounts` of the older service file
(`fmt.Sscanf` into `float64`, native float64 addition, `%.4f`), kept in
the tree with the note "Simplified implementation - use big.Float in
production". -/
def addAmountsF64 (a b : String) : Except String String :=
  match parseFloat64 a with
  | none => .error "scan failed"
  | some av =>
    match parseFloat64 b with
    | none => .error "scan failed"
    | some bv => .ok (formatFixed4 (f64add av bv))

/-- `CreateLedgerEntries` (`internal/ledger/service.go`, fixed variant):
return existing entries unchanged when any exist for the transaction;
otherwise, in one database transaction, read both latest balances
(defaulting to zero), compute the debit balance with the permissive
subtraction (falling back to the raw amount only if the arithmetic itself
errors) and the credit balance with addition, insert the debit and credit
rows and one `ledger.entry_created` outbox row per entry. -/
def CreateLedgerEntries (req : CreateLedgerEntriesRequest) (s : State) :
    Except String (List LedgerEntry) × State :=
  let existing := GetEntriesByTransaction s req.transactionId
  if existing ≠ [] then (.ok existing, s)
  else
    let fromBalance := GetLatestBalance s req.fromWalletId
    let toBalance := GetLatestBalance s req.toWalletId
    let newFromBalance :=
      match subtractAmounts fromBalance req.amount with
      | .error _ => req.amount
      | .ok v => v
    match addAmounts toBalance req.amount with
    | .error e => (.error ("failed to calculate to balance: " ++ e), s)
    | .ok newToBalance =>
      let debit : LedgerEntry :=
        { id := "le-" ++ toString s.nextId
          transactionId := req.transactionId
          walletId := req.fromWalletId
          entryType := "debit"
          amount := req.amount
          currency := req.currency
          balance := newFromBalance
          description := "Transfer to " ++ req.toWalletId ++ ": " ++ req.description
          metadata := [("to_wallet_id", req.toWalletId),
                       ("balance_before", fromBalance),
                       ("balance_after", newFromBalance)]
          createdAt := s.now }
      let credit : LedgerEntry :=
        { id := "le-" ++ toString (s.nextId + 1)
          transactionId := req.transactionId
          walletId := req.toWalletId
          entryType := "credit"
          amount := req.amount
          currency := req.currency
          balance := newToBalance
          description := "Transfer from " ++ req.fromWalletId ++ ": " ++ req.description
          metadata := [("from_wallet_id", req.fromWalletId),
                       ("balance_before", toBalance),
                       ("balance_after", newToBalance)]
          createdAt := s.now + 1 }
      (.ok [debit, credit],
        { s with
          entries := s.entries ++ [debit, credit]
          outbox := s.outbox ++
            [({ aggregateId := debit.id, eventType := "ledger.entry_created",
                topic := "ledger.entry_created" } : OutboxEvent),
             ({ aggregateId := credit.id, eventType := "ledger.entry_created",
                topic := "ledger.entry_created" } : OutboxEvent)]
          nextId := s.nextId + 2
          now := s.now + 2 })

end Ledger

/-! ## Analytics service (`internal/analytics`) -/

namespace Analytics

/-- `EventProcessingLog` row (inbox). Bus partition / offset and the raw
event bytes are diagnostics projected away. -/
structure EventLog where
  eventId : String
  eventType : String
  topic : String
  status : String
  errorMessage : Option String
  processingTimeMs : Nat
  deriving Repr, DecidableEq

/-- `DailyMetric` row; monetary columns are exact database numerics. -/
structure DailyMetric where
  metricDate : Nat
  totalTransactions : Int
  totalVolume : MQ
  totalFees : MQ
  uniqueUsers : Int
  successfulTransactions : Int
  failedTransactions : Int
  deriving Repr, DecidableEq

/-- `HourlyMetric` row (the extra min/max/avg columns evolve the same way
as the daily ones and are projected away). -/
structure HourlyMetric where
  metricHour : Nat
  totalTransactions : Int
  totalVolume : MQ
  successfulTransactions : Int
  failedTransactions : Int
  deriving Repr, DecidableEq

/-- `UserSnapshot` row. -/
structure UserSnapshot where
  userId : String
  snapshotDate : Nat
  totalSent : MQ
  totalReceived : MQ
  transactionCount : Int
  sentCount : Int
  receivedCount : Int
  deriving Repr, DecidableEq

/-- `LedgerEntryCreatedEvent` as built by `ProcessKafkaEvent`
(`internal/analytics/service.go`): the amount is already a `float64`. -/
structure LedgerEntryCreatedEvent where
  eventId : String
  ledgerId : String
  transactionId : String
  fromWalletId : String
  toWalletId : String
  amount : MQ
  fee : MQ
  status : String
  transactionType : String
  createdAtDay : Nat
  createdAtHour : Nat
  deriving Repr, DecidableEq

/-- Analytics service state: the inbox and the aggregate tables. -/
structure State where
  inbox : List EventLog
  daily : List DailyMetric
  hourly : List HourlyMetric
  snapshots : List UserSnapshot
  deriving Repr, DecidableEq

/-- `repo.GetEventLogByEventID` (`internal/analytics/repository.go:391`):
`WHERE event_id = $1` — no filter on `status`. -/
def GetEventLogByEventID (s : State) (eventID : String) : Option EventLog :=
  s.inbox.find? (fun l => l.eventId = eventID)

/-- `IsEventProcessed` (`internal/analytics/service.go:279`): true iff
`GetEventLogByEventID` found **any** row, whatever its `status`. -/
def IsEventProcessed (s : State) (eventID : String) : Bool :=
  (GetEventLogByEventID s eventID).isSome

/-- `repo.UpsertDailyMetric` (`repository.go:46`): `ON CONFLICT
(metric_date) DO UPDATE` accumulating counts and sums. -/
def UpsertDailyMetric (s : State) (m : DailyMetric) : State :=
  if s.daily.any (fun d => d.metricDate = m.metricDate) then
    { s with daily := s.daily.map (fun d =>
        if d.metricDate = m.metricDate then
          { d with
            totalTransactions := d.totalTransactions + m.totalTransactions
            totalVolume := d.totalVolume.add m.totalVolume
            totalFees := d.totalFees.add m.totalFees
            uniqueUsers := m.uniqueUsers
            successfulTransactions :=
              d.successfulTransactions + m.successfulTransactions
            failedTransactions := d.failedTransactions + m.failedTransactions }
        else d) }
  else { s with daily := s.daily ++ [m] }

/-- `repo.UpsertHourlyMetric`: same accumulate-on-conflict shape keyed on
`metric_hour`. -/
def UpsertHourlyMetric (s : State) (m : HourlyMetric) : State :=
  if s.hourly.any (fun d => d.metricHour = m.metricHour) then
    { s with hourly := s.hourly.map (fun d =>
        if d.metricHour = m.metricHour then
          { d with
            totalTransactions := d.totalTransactions + m.totalTransactions
            totalVolume := d.totalVolume.add m.totalVolume
            successfulTransactions :=
              d.successfulTransactions + m.successfulTransactions
            failedTransactions := d.failedTransactions + m.failedTransactions }
        else d) }
  else { s with hourly := s.hourly ++ [m] }

/-- `repo.UpsertUserSnapshot`: accumulate-on-conflict keyed on
`(user_id, snapshot_date)`. -/
def UpsertUserSnapshot (s : State) (m : UserSnapshot) : State :=
  if s.snapshots.any (fun d => d.userId = m.userId ∧ d.snapshotDate = m.snapshotDate) then
    { s with snapshots := s.snapshots.map (fun d =>
        if d.userId = m.userId ∧ d.snapshotDate = m.snapshotDate then
          { d with
            totalSent := d.totalSent.add m.totalSent
            totalReceived := d.totalReceived.add m.totalReceived
            transactionCount := d.transactionCount + m.transactionCount
            sentCount := d.sentCount + m.sentCount
            receivedCount := d.receivedCount + m.receivedCount }
        else d) }
  else { s with snapshots := s.snapshots ++ [m] }

/-- `updateUserSnapshot` (`service.go:211`): upsert the sender snapshot
(skipped for an empty wallet id) and the receiver snapshot. -/
def updateUserSnapshot (s : State) (ev : LedgerEntryCreatedEvent) : State :=
  let s :=
    if ev.fromWalletId ≠ "" then
      UpsertUserSnapshot s
        { userId := ev.fromWalletId, snapshotDate := ev.createdAtDay
          totalSent := ev.amount, totalReceived := MQ.ofInt 0
          transactionCount := 1, sentCount := 1, receivedCount := 0 }
    else s
  if ev.toWalletId ≠ "" then
    UpsertUserSnapshot s
      { userId := ev.toWalletId, snapshotDate := ev.createdAtDay
        totalSent := MQ.ofInt 0, totalReceived := ev.amount
        transactionCount := 1, sentCount := 0, receivedCount := 1 }
  else s

/-- `processEvent` (`service.go:153`): upsert the daily and hourly metrics
and both user snapshots. -/
def processEvent (s : State) (ev : LedgerEntryCreatedEvent) : State :=
  let successCount : Int := if ev.status = "completed" then 1 else 0
  let failCount : Int := if ev.status = "completed" then 0 else 1
  let s := UpsertDailyMetric s
    { metricDate := ev.createdAtDay, totalTransactions := 1
      totalVolume := ev.amount, totalFees := ev.fee, uniqueUsers := 1
      successfulTransactions := successCount, failedTransactions := failCount }
  let s := UpsertHourlyMetric s
    { metricHour := ev.createdAtHour, totalTransactions := 1
      totalVolume := ev.amount
      successfulTransactions := successCount, failedTransactions := failCount }
  updateUserSnapshot s ev

/-- `ProcessLedgerEntryCreated` (`service.go:107`): skip when
`IsEventProcessed` says so; otherwise apply the aggregate updates and
insert the inbox row with `status=processed`. The `status=failed` insert
happens only when a repository call errors, which the reliable-database
model never does. -/
def ProcessLedgerEntryCreated (ev : LedgerEntryCreatedEvent) (s : State) :
    Except String Unit × State :=
  if IsEventProcessed s ev.eventId then (.ok (), s)
  else
    let s1 := processEvent s ev
    (.ok (), { s1 with inbox := s1.inbox ++
      [({ eventId := ev.eventId, eventType := "ledger.entry_created",
          topic := "ledger.entry_created", status := "processed",
          errorMessage := none, processingTimeMs := 0 } : EventLog)] })

end Analytics

/-! ## Spec-side definitions (for refinement comparisons)

These definitions follow the specification's words, not the Go code, and
exist only to be compared with the source-derived definitions above. -/

/-- Spec-side: "ascending id order" — the two ids as a sorted pair. -/
def specAscendingPair (a b : String) : List String :=
  if goStringLess a b || a == b then [a, b] else [b, a]

/-- Spec-side: the ledger debit running balance of §4.7,
`max(0, from_balance - amount)`. -/
def specDebitBalanceClamped (fromBal amount : MQ) : MQ :=
  if (fromBal.sub amount).qlt ⟨0, 1⟩ then ⟨0, 1⟩ else fromBal.sub amount

/-- Spec-side: exact decimal sum of a batch's amounts. -/
def specExactSum : List Txn.BatchTransferItem → Option MQ
  | [] => some (MQ.ofInt 0)
  | t :: rest =>
    match parseDec t.amount, specExactSum rest with
    | some a, some r => some (a.add r)
    | _, _ => none

/-- Spec-side: "the mathematical decimal result formatted with 4
fractional digits" for a batch total. -/
def specExactBatchTotal (l : List Txn.BatchTransferItem) : Option String :=
  (specExactSum l).map formatFixed4

/-- Spec-side: exact decimal addition of two amount strings, formatted
with 4 fractional digits. -/
def specExactAdd (a b : String) : Option String :=
  match parseDec a, parseDec b with
  | some av, some bv => some (formatFixed4 (av.add bv))
  | _, _ => none

/-! ## Derived observations used by the theorems -/

deriving instance DecidableEq for Except

/-- Whether an `Except` is a success. -/
def isOkE {ε α : Type} : Except ε α → Bool
  | .ok _ => true
  | .error _ => false

/-- Number of `transactions` rows carrying an idempotency key. -/
def countTxnRowsWithKey (g : Txn.GState) (key : String) : Nat :=
  (g.txns.filter (fun t => t.idempotencyKey = key)).length

/-- `k`-fold repetition of the same P2P request. -/
def iterP2P (req : Txn.CreateTransactionRequest) : Nat → Txn.GState → Txn.GState
  | 0, g => g
  | k + 1, g => (Txn.CreateP2PTransfer req (iterP2P req k g)).2

/-- `transactions` row lookup by id. -/
def rowById (g : Txn.GState) (id : String) : Option Txn.TxnRow :=
  g.txns.find? (fun t => t.id = id)

/-- Number of `transaction.completed` outbox rows for one aggregate. -/
def countCompletedEvents (g : Txn.GState) (id : String) : Nat :=
  (g.outbox.filter (fun e =>
    e.eventType = "transaction.completed" && e.aggregateId = id)).length

/-- Outcome of a successful dispatch of a scheduled row `t`: in the final
state the row is `completed` with `processed_at` stamped `now0`, the
derived key `scheduled-{id}` is held by the wallet service, and exactly
one `transaction.completed` outbox row was added for it (`c0` is the
count before the cycle). -/
def dispatchedOk (now0 c0 : Nat) (gFin : Txn.GState) (t : Txn.TxnRow) : Prop :=
  rowById gFin t.id =
    some { t with status := "completed", processedAt := some now0 } ∧
  ("scheduled-" ++ t.id) ∈ gFin.wsvc.idem ∧
  countCompletedEvents gFin t.id = c0 + 1

/-- Outcome of a failed dispatch of a scheduled row `t`: the row is
`failed` with a `failure_reason` recorded and `processed_at` stamped, and
no `transaction.completed` outbox row was emitted for it. -/
def dispatchedFailed (now0 c0 : Nat) (gFin : Txn.GState) (t : Txn.TxnRow) : Prop :=
  (∃ reason, rowById gFin t.id =
    some { t with status := "failed", failureReason := some reason,
                  processedAt := some now0 }) ∧
  countCompletedEvents gFin t.id = c0

/-! ## Concrete fixtures (witness inputs) -/

namespace Fx

def wUsd1 : WalletSvc.Wallet := ⟨"w1", "u1", "USD", "500.0000", "active"⟩

def wUsd2 : WalletSvc.Wallet := ⟨"w2", "u2", "USD", "100.0000", "active"⟩

def wEur : WalletSvc.Wallet := ⟨"w3", "u3", "EUR", "100.0000", "active"⟩

def ws0 : WalletSvc.State := ⟨[], [], [wUsd1, wUsd2, wEur], [], []⟩

def g0 : Txn.GState := ⟨[], [], [], [], ws0, 0, 0⟩

def reqP : Txn.CreateTransactionRequest := ⟨"w1", "w2", "50.00", "", "k1"⟩

def wSrc : WalletSvc.Wallet := ⟨"wsrc", "u1", "USD", "100.0000", "active"⟩

def wA : WalletSvc.Wallet := ⟨"wa", "u2", "USD", "0.0000", "active"⟩

def wsB : WalletSvc.State := ⟨[], [], [wSrc, wA], [], []⟩

def gB : Txn.GState := ⟨[], [], [], [], wsB, 0, 0⟩

def reqB : Txn.CreateBatchTransactionRequest :=
  ⟨"wsrc", [⟨"wa", "50.00", "pay a"⟩, ⟨"wx", "25.00", "pay x"⟩], "bk"⟩

def ls0 : Ledger.State := ⟨[], [], 0, 0⟩

def reqL : Ledger.CreateLedgerEntriesRequest :=
  ⟨"t1", "w1", "w2", "50.0000", "USD", "p2p transfer"⟩

def entE : Ledger.LedgerEntry :=
  ⟨"le-7", "t9", "w1", "debit", "10.0000", "USD", "90.0000", "d", [], 3⟩

def lsE : Ledger.State := ⟨[entE], [], 8, 4⟩

def failedRow : Analytics.EventLog :=
  ⟨"e1", "ledger.entry_created", "ledger.entry_created", "failed", some "boom", 0⟩

def asF : Analytics.State := ⟨[failedRow], [], [], []⟩

def ev1 : Analytics.LedgerEntryCreatedEvent :=
  ⟨"e1", "le-0", "t1", "w1", "w2", ⟨500000, 10000⟩, ⟨0, 1⟩, "completed", "debit", 1, 24⟩

def ev2 : Analytics.LedgerEntryCreatedEvent :=
  ⟨"e2", "le-1", "t1", "w2", "w1", ⟨500000, 10000⟩, ⟨0, 1⟩, "completed", "credit", 1, 24⟩

def schedRow1 : Txn.TxnRow :=
  ⟨"t1", "w1", "w2", "50.00", "USD", "scheduled", "scheduled", "", "sk1", some 5,
    none, none⟩

def schedRow2 : Txn.TxnRow :=
  ⟨"t2", "w1", "nope", "10.00", "USD", "scheduled", "scheduled", "", "sk2", some 3,
    none, none⟩

def gS : Txn.GState := ⟨[], [schedRow1, schedRow2], [], [], ws0, 10, 10⟩

def reqT : WalletSvc.TransferRequest := ⟨"w1", "w3", "50.00", "kx"⟩

def reqPMismatch : Txn.CreateTransactionRequest := ⟨"w1", "w3", "50.00", "", "km"⟩

def processedLog (ev : Analytics.LedgerEntryCreatedEvent) : Analytics.EventLog :=
  ⟨ev.eventId, "ledger.entry_created", "ledger.entry_created", "processed", none, 0⟩

/-- The `big.Float` value of the amount `50.0000`. -/
def av50 : MQ := (parseBig64 "50.0000").getD (MQ.ofInt 0)

end Fx

/-! ## Helper lemmas -/

theorem charListLt_irrefl (l : List Char) : charListLt l l = false := by
  induction l with
  | nil => rfl
  | cons a as ih => simp [charListLt, ih]

theorem charListLt_asymm (a b : List Char) (h : charListLt a b = true) :
    charListLt b a = false := by
  induction a generalizing b with
  | nil =>
    cases b with
    | nil => simp [charListLt] at h
    | cons c cs => rfl
  | cons x xs ih =>
    cases b with
    | nil => simp [charListLt] at h
    | cons y ys =>
      simp only [charListLt] at h ⊢
      rcases lt_trichotomy x y with hxy | hxy | hxy
      · simp [hxy, not_lt_of_lt hxy]
      · subst hxy
        simp only [lt_irrefl, if_false] at h ⊢
        exact ih ys h
      · simp [hxy, not_lt_of_lt hxy] at h

theorem charListLt_conn (a b : List Char) (h1 : charListLt a b = false)
    (h2 : charListLt b a = false) : a = b := by
  induction a generalizing b with
  | nil =>
    cases b with
    | nil => rfl
    | cons c cs => simp [charListLt] at h1
  | cons x xs ih =>
    cases b with
    | nil => simp [charListLt] at h2
    | cons y ys =>
      simp only [charListLt] at h1 h2
      rcases lt_trichotomy x y with hxy | hxy | hxy
      · simp [hxy] at h1
      · subst hxy
        simp only [lt_irrefl, if_false] at h1 h2
        rw [ih ys h1 h2]
      · simp [hxy] at h2

theorem goStringLess_asymm (a b : String) (h : goStringLess a b = true) :
    goStringLess b a = false :=
  charListLt_asymm a.data b.data h

theorem goStringLess_conn (a b : String) (h1 : goStringLess a b = false)
    (h2 : goStringLess b a = false) : a = b := by
  cases a with
  | mk da =>
    cases b with
    | mk db =>
      rw [charListLt_conn da db h1 h2]

theorem digit_ne_minus {c : Char} (h : c.isDigit = true) : c ≠ '-' := by
  intro he
  subst he
  simp [Char.isDigit] at h

/-- Any string matching the amount regex parses to a nonnegative multiple
of `1 / 10000`. -/
theorem parseDec_of_regex (t : String) (h : amountRegexAccepts t = true) :
    ∃ (n : Nat) (q : MQ), parseDec t = some q ∧
      q.qeq ⟨(n : Int), 10000⟩ = true := by
  simp only [amountRegexAccepts, Bool.and_eq_true, Bool.or_eq_true,
    decide_eq_true_eq, List.all_eq_true] at h
  obtain ⟨⟨hip, hipd⟩, hrest⟩ := h
  obtain ⟨c, ip', hipeq⟩ : ∃ c ip',
      t.data.takeWhile (fun c => c ≠ '.') = c :: ip' := by
    cases hc : t.data.takeWhile (fun c => c ≠ '.') with
    | nil => exact absurd hc hip
    | cons c ip' => exact ⟨c, ip', rfl⟩
  have hcdigit : c.isDigit = true := hipd c (by rw [hipeq]; exact List.mem_cons_self c ip')
  have hall : (c :: ip').all Char.isDigit = true := by
    rw [List.all_eq_true]
    intro x hx
    exact hipd x (by rw [hipeq]; exact hx)
  have hhead : t.data.head? = some c := by
    have hsplit : t.data.takeWhile (fun c => c ≠ '.') ++
        t.data.dropWhile (fun c => c ≠ '.') = t.data :=
      List.takeWhile_append_dropWhile _ _
    rw [← hsplit, hipeq]
    rfl
  have hcne : ¬ (c = '-') := digit_ne_minus hcdigit
  rcases hrest with hnil | ⟨⟨⟨hdot, hne⟩, hlen⟩, hfd⟩
  · refine ⟨digitsVal (c :: ip') * 10000, ⟨1 * (digitsVal (c :: ip') : Int), 1⟩,
      ?_, ?_⟩
    · simp only [parseDec, hhead, Option.some.injEq, hcne, if_false, ite_false,
        hipeq, hnil, hall, List.cons_ne_self]
      simp [hall]
    · simp only [MQ.qeq, decide_eq_true_eq]
      push_cast
      ring
  · obtain ⟨d, frac, hdeq⟩ : ∃ d frac,
        t.data.dropWhile (fun c => c ≠ '.') = d :: frac := by
      cases hc : t.data.dropWhile (fun c => c ≠ '.') with
      | nil => rw [hc] at hdot; exact absurd hdot (by simp)
      | cons d frac => exact ⟨d, frac, rfl⟩
    have hd : d = '.' := by
      rw [hdeq] at hdot
      simpa using hdot
    rw [hdeq] at hne hlen hfd
    subst hd
    have hfall : frac.all Char.isDigit = true := by
      rw [List.all_eq_true]
      intro x hx
      exact hfd x hx
    refine ⟨(digitsVal (c :: ip') * 10 ^ frac.length + digitsVal frac) *
        10 ^ (4 - frac.length),
      ⟨1 * ((digitsVal (c :: ip') : Int) * 10 ^ frac.length + digitsVal frac),
        (10 : Int) ^ frac.length⟩, ?_, ?_⟩
    · have hne2 : ¬ frac = [] := by simpa using hne
      have h1 : ¬ ((decide (c :: ip' = []) || decide ¬True) = true) := by simp
      have h2 : (decide True && decide (frac ≠ []) && frac.all Char.isDigit) =
          true := by simp [hne2, hfall]
      simp only [parseDec, hhead, Option.some.injEq, hcne, if_false, ite_false,
        hipeq, hdeq, hall]
      rw [if_neg h1, if_pos h2]
    · simp only [MQ.qeq, decide_eq_true_eq]
      have hpow : (10000 : Int) = 10 ^ (4 - frac.length) * 10 ^ frac.length := by
        rw [← pow_add]
        have hlen2 : frac.length ≤ 4 := by simpa using hlen
        have h4 : 4 - frac.length + frac.length = 4 := by omega
        rw [h4]
        norm_num
      rw [hpow]
      push_cast
      ring

theorem getWalletRow_id (s : WalletSvc.State) (j : String) (w : WalletSvc.Wallet)
    (h : WalletSvc.getWalletRow s j = some w) : w.id = j := by
  have := List.find?_some h
  simpa using this

theorem find?_map_balanceUpdate (l : List WalletSvc.Wallet) (i b j : String) :
    (l.map (fun w => if w.id = i then { w with balance := b } else w)).find?
        (fun w => w.id = j) =
      (l.find? (fun w => w.id = j)).map
        (fun w => if w.id = i then { w with balance := b } else w) := by
  induction l with
  | nil => rfl
  | cons w ws ih =>
    by_cases hwj : w.id = j
    · subst hwj
      by_cases hwi : w.id = i <;>
        simp [List.find?_cons, hwi]
    · by_cases hwi : w.id = i
      · have hij : ¬ i = j := by
          rw [← hwi]
          exact hwj
        simp [List.find?_cons, hwj, hwi, hij, ih]
      · simp [List.find?_cons, hwj, hwi, ih]

theorem getWalletRow_updateBalance (s : WalletSvc.State) (i b j : String) :
    WalletSvc.getWalletRow (WalletSvc.updateBalance s i b) j =
      (WalletSvc.getWalletRow s j).map
        (fun w => if w.id = i then { w with balance := b } else w) := by
  simp only [WalletSvc.getWalletRow, WalletSvc.updateBalance]
  exact find?_map_balanceUpdate s.wallets i b j

/-- A failing wallet `Transfer` leaves the wallet-service state exactly as
it was (the database transaction rolls back, the locks are released by
`defer`, and the Redis key is only set after success). -/
theorem transfer_error_state (req : WalletSvc.TransferRequest)
    (s : WalletSvc.State) (e : String) (ws : WalletSvc.State)
    (h : WalletSvc.Transfer req s = (.error e, ws)) : ws = s := by
  rw [WalletSvc.Transfer] at h
  split_ifs at h with h1 h2 h3
  · exact (Prod.mk.injEq _ _ _ _ ▸ h).2.symm
  · exact (Prod.mk.injEq _ _ _ _ ▸ h).2.symm
  · exact (Prod.mk.injEq _ _ _ _ ▸ h).2.symm
  · split at h
    next e2 hbody => exact (Prod.mk.injEq _ _ _ _ ▸ h).2.symm
    next s1 hbody => simp at h

/-- The database-transaction body of the wallet `Transfer` never touches
the Redis idempotency-key set. -/
theorem transferTxBody_idem (req : WalletSvc.TransferRequest)
    (s s1 : WalletSvc.State)
    (h : WalletSvc.transferTxBody req s = .ok s1) : s1.idem = s.idem := by
  simp only [WalletSvc.transferTxBody] at h
  split at h
  next => simp at h
  next fw hfw =>
  split at h
  next => simp at h
  next tw htw =>
  split_ifs at h with h1 h2 h3
  split at h
  next => simp at h
  next nfb hsub =>
  split at h
  next => simp at h
  next ntb hadd =>
  simp only [Except.ok.injEq] at h
  rw [← h]
  rfl

/-- A successful wallet `Transfer` appends exactly the request's
idempotency key to the Redis key set. -/
theorem transfer_ok_idem (req : WalletSvc.TransferRequest)
    (s : WalletSvc.State) (u : Unit) (ws : WalletSvc.State)
    (h : WalletSvc.Transfer req s = (.ok u, ws)) :
    ws.idem = s.idem ++ [req.idempotencyKey] := by
  rw [WalletSvc.Transfer] at h
  split_ifs at h with h1 h2 h3
  · simp at h
  · simp at h
  · simp at h
  · split at h
    next e2 hbody => simp at h
    next s1 hbody =>
      simp only [Prod.mk.injEq] at h
      rw [← h.2]
      rw [transferTxBody_idem req s s1 hbody]

/-- `find?` by id over a per-id row update. -/
theorem find?_map_rowUpdate (l : List Txn.TxnRow) (i j : String)
    (f : Txn.TxnRow → Txn.TxnRow) (hf : ∀ t, (f t).id = t.id) :
    (l.map (fun t => if t.id = i then f t else t)).find?
        (fun t => t.id = j) =
      (l.find? (fun t => t.id = j)).map
        (fun t => if t.id = i then f t else t) := by
  induction l with
  | nil => rfl
  | cons w ws ih =>
    simp only [List.map_cons]
    by_cases hwj : w.id = j
    · have hj : (if w.id = i then f w else w).id = j := by
        by_cases hwi : w.id = i
        · rw [if_pos hwi, hf, hwj]
        · rw [if_neg hwi, hwj]
      rw [List.find?_cons_of_pos _ (by simp [hj]),
        List.find?_cons_of_pos _ (by simp [hwj])]
      rfl
    · have hj : ¬ ((if w.id = i then f w else w).id = j) := by
        by_cases hwi : w.id = i
        · rw [if_pos hwi, hf]
          exact hwj
        · rw [if_neg hwi]
          exact hwj
      rw [List.find?_cons_of_neg _ (by simp [hj]),
        List.find?_cons_of_neg _ (by simp [hwj]), ih]

theorem execWT_error (g : Txn.GState) (req : WalletSvc.TransferRequest)
    (e : String) (ws : WalletSvc.State)
    (h : Txn.executeWalletTransfer g req = (.error e, ws)) : ws = g.wsvc := by
  rw [Txn.executeWalletTransfer] at h
  split at h
  next e2 ws2 heq =>
    simp only [Prod.mk.injEq] at h
    rw [← h.2]
    exact transfer_error_state req g.wsvc e2 ws2 heq
  next u ws2 heq => simp at h

theorem execWT_ok (g : Txn.GState) (req : WalletSvc.TransferRequest)
    (u : Unit) (ws : WalletSvc.State)
    (h : Txn.executeWalletTransfer g req = (.ok u, ws)) :
    ws.idem = g.wsvc.idem ++ [req.idempotencyKey] := by
  rw [Txn.executeWalletTransfer] at h
  split at h
  next e2 ws2 heq => simp at h
  next u2 ws2 heq =>
    simp only [Prod.mk.injEq] at h
    rw [← h.2]
    exact transfer_ok_idem req g.wsvc u2 ws2 heq

/-- A failing `executeScheduledTransfer` leaves the `transactions` table,
the batches and the outbox untouched, and only ever extends the
wallet-service Redis key set. -/
theorem execSched_error_state (txn : Txn.TxnRow) (g : Txn.GState)
    (e : String) (g1 : Txn.GState)
    (h : Txn.executeScheduledTransfer txn g = (.error e, g1)) :
    g1.txns = g.txns ∧ g1.outbox = g.outbox ∧
    (∀ x ∈ g.wsvc.idem, x ∈ g1.wsvc.idem) := by
  simp only [Txn.executeScheduledTransfer] at h
  split at h
  next e2 hfw =>
    simp only [Prod.mk.injEq] at h
    rw [← h.2]
    exact ⟨rfl, rfl, fun x hx => hx⟩
  next fw hfw =>
  split at h
  next e2 htw =>
    simp only [Prod.mk.injEq] at h
    rw [← h.2]
    exact ⟨rfl, rfl, fun x hx => hx⟩
  next tw htw =>
  split_ifs at h with h1
  · split at h
    next e2 ws hex =>
      simp only [Prod.mk.injEq] at h
      rw [← h.2]
      have hws := execWT_error g _ e2 ws hex
      subst hws
      exact ⟨rfl, rfl, fun x hx => hx⟩
    next u2 ws hex =>
      split at h
      next e2 hupd =>
        simp only [Prod.mk.injEq] at h
        rw [← h.2]
        refine ⟨rfl, rfl, fun x hx => ?_⟩
        have hidem := execWT_ok g _ u2 ws hex
        simp only [hidem]
        exact List.mem_append_left _ hx
      next g2 hupd => simp at h
  · simp only [Prod.mk.injEq] at h
    rw [← h.2]
    exact ⟨rfl, rfl, fun x hx => hx⟩

/-- A successful `executeScheduledTransfer` marks exactly the row of the
dispatched id `completed` with `processed_at` set, appends one
`transaction.completed` outbox row for it, and records the derived key
`scheduled-{id}` in the wallet service's Redis key set. -/
theorem execSched_ok_state (txn : Txn.TxnRow) (g : Txn.GState)
    (u : Unit) (g1 : Txn.GState)
    (h : Txn.executeScheduledTransfer txn g = (.ok u, g1)) :
    g1.txns = g.txns.map (fun t =>
      if t.id = txn.id then
        { t with status := "completed", processedAt := some g.now }
      else t) ∧
    g1.outbox = g.outbox ++
      [⟨txn.id, "transaction.completed", "transaction.completed"⟩] ∧
    ("scheduled-" ++ txn.id) ∈ g1.wsvc.idem ∧
    (∀ x ∈ g.wsvc.idem, x ∈ g1.wsvc.idem) := by
  simp only [Txn.executeScheduledTransfer] at h
  split at h
  next e2 hfw => simp at h
  next fw hfw =>
  split at h
  next e2 htw => simp at h
  next tw htw =>
  split_ifs at h with h1
  · split at h
    next e2 ws hex => simp at h
    next u2 ws hex =>
      split at h
      next e2 hupd => simp at h
      next g2 hupd =>
        simp only [Prod.mk.injEq] at h
        rw [← h.2]
        rw [Txn.updateTransactionStatusTx] at hupd
        split_ifs at hupd with hrow
        · simp only [Except.ok.injEq] at hupd
          have hidem := execWT_ok g _ u2 ws hex
          subst hupd
          refine ⟨rfl, rfl, ?_, fun x hx => ?_⟩
          · simp only [hidem]
            exact List.mem_append_right _ (by simp)
          · simp only [hidem]
            exact List.mem_append_left _ hx
  · simp at h

theorem map_ids_update (l : List Txn.TxnRow) (i : String)
    (f : Txn.TxnRow → Txn.TxnRow) (hf : ∀ t, (f t).id = t.id) :
    (l.map (fun t => if t.id = i then f t else t)).map (fun t => t.id) =
      l.map (fun t => t.id) := by
  induction l with
  | nil => rfl
  | cons w ws ih =>
    simp only [List.map_cons, ih]
    congr 1
    by_cases hwi : w.id = i
    · rw [if_pos hwi, hf]
    · rw [if_neg hwi]

theorem find?_id_of_mem (l : List Txn.TxnRow) (i : String)
    (h : i ∈ l.map (fun t => t.id)) :
    ∃ r, l.find? (fun t => t.id = i) = some r ∧ r.id = i := by
  obtain ⟨r0, hr0, hid⟩ := List.mem_map.mp h
  have hsome : (l.find? (fun t => t.id = i)).isSome := by
    rw [List.find?_isSome]
    exact ⟨r0, hr0, by simp [hid]⟩
  obtain ⟨r, hr⟩ := Option.isSome_iff_exists.mp hsome
  exact ⟨r, hr, by simpa using List.find?_some hr⟩

/-- The per-id update of a row leaves `find?` by a different id alone. -/
theorem find?_map_other (l : List Txn.TxnRow) (i j : String)
    (f : Txn.TxnRow → Txn.TxnRow) (hf : ∀ t, (f t).id = t.id)
    (hij : i ≠ j) :
    (l.map (fun t => if t.id = i then f t else t)).find?
        (fun t => t.id = j) = l.find? (fun t => t.id = j) := by
  rw [find?_map_rowUpdate l i j f hf]
  cases hfind : l.find? (fun t => t.id = j) with
  | none => rfl
  | some r0 =>
    have hid : r0.id = j := by simpa using List.find?_some hfind
    have hni : ¬ r0.id = i := by
      rw [hid]
      exact fun hh => hij hh.symm
    simp [hni]

/-- The dispatch loop only ever extends the wallet service's Redis key
set. -/
theorem processLoop_wsvc_mono (L : List Txn.TxnRow) :
    ∀ (g : Txn.GState) (n : Nat) (x : String), x ∈ g.wsvc.idem →
      x ∈ (Txn.processLoop L g n).2.wsvc.idem := by
  induction L with
  | nil => exact fun g n x hx => hx
  | cons u L ih =>
    intro g n x hx
    simp only [Txn.processLoop]
    cases hstep : Txn.executeScheduledTransfer u g with
    | mk r g1 =>
      cases r with
      | error e =>
        exact ih _ _ _ ((execSched_error_state u g e g1 hstep).2.2 x hx)
      | ok v =>
        exact ih _ _ _ ((execSched_ok_state u g v g1 hstep).2.2.2 x hx)

/-- The dispatch loop does not touch the row, nor the
`transaction.completed` outbox rows, of any id it does not process. -/
theorem processLoop_frame (L : List Txn.TxnRow) :
    ∀ (g : Txn.GState) (n : Nat) (j : String), (∀ t ∈ L, t.id ≠ j) →
      rowById (Txn.processLoop L g n).2 j = rowById g j ∧
      countCompletedEvents (Txn.processLoop L g n).2 j =
        countCompletedEvents g j := by
  induction L with
  | nil => exact fun g n j hj => ⟨rfl, rfl⟩
  | cons u L ih =>
    intro g n j hj
    have hu : u.id ≠ j := hj u (List.mem_cons_self u L)
    have hj2 : ∀ t ∈ L, t.id ≠ j := fun t ht => hj t (List.mem_cons_of_mem u ht)
    simp only [Txn.processLoop]
    cases hstep : Txn.executeScheduledTransfer u g with
    | mk r g1 =>
      cases r with
      | error e =>
        obtain ⟨htx, hob, -⟩ := execSched_error_state u g e g1 hstep
        have hrow : rowById (Txn.markTransactionAsFailed g1 u.id e) j =
            rowById g j := by
          simp only [rowById, Txn.markTransactionAsFailed]
          rw [htx]
          exact find?_map_other g.txns u.id j _ (fun t => rfl) hu
        have hcount : countCompletedEvents
            (Txn.markTransactionAsFailed g1 u.id e) j =
            countCompletedEvents g j := by
          simp only [countCompletedEvents, Txn.markTransactionAsFailed]
          rw [hob]
        have hrest := ih (Txn.markTransactionAsFailed g1 u.id e) n j hj2
        exact ⟨hrest.1.trans hrow, hrest.2.trans hcount⟩
      | ok v =>
        obtain ⟨htx, hob, -, -⟩ := execSched_ok_state u g v g1 hstep
        have hrow : rowById g1 j = rowById g j := by
          simp only [rowById]
          rw [htx]
          exact find?_map_other g.txns u.id j _ (fun t => rfl) hu
        have hcount : countCompletedEvents g1 j = countCompletedEvents g j := by
          simp only [countCompletedEvents]
          rw [hob, List.filter_append]
          have : ([(⟨u.id, "transaction.completed",
              "transaction.completed"⟩ : OutboxEvent)].filter (fun e =>
              e.eventType = "transaction.completed" && e.aggregateId = j)) = [] := by
            simp [hu]
          rw [this, List.append_nil]
        have hrest := ih g1 (n + 1) j hj2
        exact ⟨hrest.1.trans hrow, hrest.2.trans hcount⟩

/-- Executing one scheduled transfer never changes the database clock. -/
theorem execSched_now (txn : Txn.TxnRow) (g : Txn.GState) :
    (Txn.executeScheduledTransfer txn g).2.now = g.now := by
  simp only [Txn.executeScheduledTransfer]
  split
  · rfl
  next fw hfw =>
  split
  · rfl
  next tw htw =>
  split_ifs with h1
  · split
    · rfl
    next u2 ws hex =>
      split
      next e2 hupd => rfl
      next g2 hupd =>
        rw [Txn.updateTransactionStatusTx] at hupd
        split_ifs at hupd with hrow
        simp only [Except.ok.injEq] at hupd
        subst hupd
        rfl
  · rfl

/-- With unique ids, looking a member row up by its own id finds it. -/
theorem find?_self_of_nodup (l : List Txn.TxnRow) (t : Txn.TxnRow)
    (hmem : t ∈ l) (hnd : (l.map (fun r => r.id)).Nodup) :
    l.find? (fun r => r.id = t.id) = some t := by
  induction l with
  | nil => cases hmem
  | cons w ws ih =>
    simp only [List.map_cons, List.nodup_cons] at hnd
    rcases List.mem_cons.mp hmem with h | h
    · subst h
      exact List.find?_cons_of_pos _ (by simp)
    · have hwt : ¬ (w.id = t.id) := fun he =>
        hnd.1 (List.mem_map.mpr ⟨t, h, he.symm⟩)
      rw [List.find?_cons_of_neg _ (by simp [hwt])]
      exact ih h hnd.2

/-- The dispatch loop settles every selected row: each row of the worked
list whose id occurs once ends the cycle either `completed` (with the
derived Redis key set and one `transaction.completed` outbox row) or
`failed` (with a reason recorded and no success event). -/
theorem processLoop_post (L : List Txn.TxnRow) :
    ∀ (g : Txn.GState) (n : Nat),
      (L.map (fun t => t.id)).Nodup →
      ∀ t ∈ L, rowById g t.id = some t →
        dispatchedOk g.now (countCompletedEvents g t.id)
          (Txn.processLoop L g n).2 t ∨
        dispatchedFailed g.now (countCompletedEvents g t.id)
          (Txn.processLoop L g n).2 t := by
  induction L with
  | nil => intro g n hnd t ht; cases ht
  | cons u L ih =>
    intro g n hnd t ht hrow
    simp only [List.map_cons, List.nodup_cons] at hnd
    obtain ⟨hu_notin, hnd'⟩ := hnd
    have hLne : ∀ t' ∈ L, t'.id ≠ u.id := fun t' ht' he =>
      hu_notin (List.mem_map.mpr ⟨t', ht', he⟩)
    simp only [Txn.processLoop]
    cases hstep : Txn.executeScheduledTransfer u g with
    | mk r g1 =>
      have hnow1 : g1.now = g.now := by
        have hh := execSched_now u g
        rw [hstep] at hh
        exact hh
      cases r with
      | error e =>
        obtain ⟨htx, hob, hmono⟩ := execSched_error_state u g e g1 hstep
        have hg2now : (Txn.markTransactionAsFailed g1 u.id e).now = g.now := by
          simp only [Txn.markTransactionAsFailed]
          exact hnow1
        have hg2ob : (Txn.markTransactionAsFailed g1 u.id e).outbox = g.outbox := by
          simp only [Txn.markTransactionAsFailed]
          exact hob
        rcases List.mem_cons.mp ht with hteq | htmem
        · subst hteq
          right
          have hframe := processLoop_frame L
            (Txn.markTransactionAsFailed g1 t.id e) n t.id hLne
          constructor
          · refine ⟨e, hframe.1.trans ?_⟩
            simp only [rowById, Txn.markTransactionAsFailed]
            rw [htx, find?_map_rowUpdate g.txns t.id t.id
              (fun r => { r with
                status := "failed"
                failureReason := some e
                processedAt := some g1.now }) (fun r => rfl)]
            rw [rowById] at hrow
            rw [hrow]
            rw [Option.map_some']
            rw [if_pos rfl, hnow1]
          · refine hframe.2.trans ?_
            simp only [countCompletedEvents, hg2ob]
        · have hne : t.id ≠ u.id := hLne t htmem
          have hrow2 : rowById (Txn.markTransactionAsFailed g1 u.id e) t.id
              = some t := by
            simp only [rowById, Txn.markTransactionAsFailed]
            rw [htx, find?_map_other g.txns u.id t.id
              (fun r => { r with
                status := "failed"
                failureReason := some e
                processedAt := some g1.now }) (fun r => rfl)
              (fun he => hne he.symm)]
            exact hrow
          have hc2 : countCompletedEvents (Txn.markTransactionAsFailed g1 u.id e)
              t.id = countCompletedEvents g t.id := by
            simp only [countCompletedEvents, hg2ob]
          have hres := ih (Txn.markTransactionAsFailed g1 u.id e) n hnd' t htmem hrow2
          rw [hg2now, hc2] at hres
          exact hres
      | ok v =>
        obtain ⟨htx, hob, hkey, hmono⟩ := execSched_ok_state u g v g1 hstep
        rcases List.mem_cons.mp ht with hteq | htmem
        · subst hteq
          left
          have hframe := processLoop_frame L g1 (n + 1) t.id hLne
          refine ⟨hframe.1.trans ?_, ?_, hframe.2.trans ?_⟩
          · simp only [rowById]
            rw [htx, find?_map_rowUpdate g.txns t.id t.id
              (fun r => { r with
                status := "completed"
                processedAt := some g.now }) (fun r => rfl)]
            rw [rowById] at hrow
            rw [hrow]
            rw [Option.map_some']
            rw [if_pos rfl]
          · exact processLoop_wsvc_mono L g1 (n + 1) _ hkey
          · simp only [countCompletedEvents]
            rw [hob, List.filter_append, List.length_append]
            have hone : ([(⟨t.id, "transaction.completed",
                "transaction.completed"⟩ : OutboxEvent)].filter (fun e =>
                e.eventType = "transaction.completed" &&
                  e.aggregateId = t.id)).length = 1 := by
              simp
            rw [hone]
        · have hne : t.id ≠ u.id := hLne t htmem
          have hrow2 : rowById g1 t.id = some t := by
            simp only [rowById]
            rw [htx, find?_map_other g.txns u.id t.id
              (fun r => { r with
                status := "completed"
                processedAt := some g.now }) (fun r => rfl)
              (fun he => hne he.symm)]
            exact hrow
          have hc2 : countCompletedEvents g1 t.id = countCompletedEvents g t.id := by
            simp only [countCompletedEvents]
            rw [hob, List.filter_append, List.length_append]
            have hzero : ([(⟨u.id, "transaction.completed",
                "transaction.completed"⟩ : OutboxEvent)].filter (fun e =>
                e.eventType = "transaction.completed" &&
                  e.aggregateId = t.id)).length = 0 := by
              simp [Ne.symm hne]
            rw [hzero, Nat.add_zero]
          have hres := ih g1 (n + 1) hnd' t htmem hrow2
          rw [hnow1, hc2] at hres
          exact hres

/-- A successful `CreateP2PTransfer` passed validation, recorded exactly
one new `transactions` row carrying the request's idempotency key (none
existed before, by the unique constraint), and set the Redis key. -/
theorem p2p_success_shape (req : Txn.CreateTransactionRequest) (g : Txn.GState)
    (t : Txn.TxnRow) (g1 : Txn.GState)
    (h : Txn.CreateP2PTransfer req g = (.ok t, g1)) :
    Txn.ValidateCreateTransactionRequest req = .ok () ∧
    req.idempotencyKey ∈ g1.txnIdem ∧
    g.txns.any (fun r => r.idempotencyKey = req.idempotencyKey) = false ∧
    ∃ row : Txn.TxnRow, row.idempotencyKey = req.idempotencyKey ∧
      g1.txns = g.txns ++ [row] := by
  simp only [Txn.CreateP2PTransfer] at h
  split at h
  next e hval => simp at h
  next u hval =>
  refine ⟨by cases u; exact hval, ?_⟩
  split at h
  next hk => simp at h
  next hk =>
  split at h
  next e hfw => simp at h
  next fw hfw =>
  split at h
  next e htw => simp at h
  next tw htw =>
  split at h
  next hcur => simp at h
  next hcur =>
  split at h
  next hsb => simp at h
  next hsb =>
  split at h
  next e ws hex => simp at h
  next a ws hex =>
  split at h
  next e hct => simp at h
  next row g2 hct =>
  simp only [Prod.mk.injEq, Except.ok.injEq] at h
  obtain ⟨-, hg1⟩ := h
  rw [Txn.createTransactionTx] at hct
  split at hct
  next hany => simp at hct
  next hany =>
  simp only [Except.ok.injEq, Prod.mk.injEq] at hct
  obtain ⟨hrow, hg2⟩ := hct
  subst hg1
  subst hg2
  refine ⟨?_, ?_, ?_⟩
  · simp
  · simpa using hany
  · exact ⟨row, by rw [← hrow], by simp [← hrow]⟩

/-- A `CreateP2PTransfer` whose validation passes but whose idempotency
key is already in the Redis store is rejected as a duplicate with no state
change. -/
theorem p2p_duplicate (req : Txn.CreateTransactionRequest) (g : Txn.GState)
    (hval : Txn.ValidateCreateTransactionRequest req = .ok ())
    (hk : req.idempotencyKey ∈ g.txnIdem) :
    Txn.CreateP2PTransfer req g =
      (.error "duplicate request: idempotency key already used", g) := by
  rw [Txn.CreateP2PTransfer, hval]
  simp [hk]

theorem upsertDaily_inbox (s : Analytics.State) (m : Analytics.DailyMetric) :
    (Analytics.UpsertDailyMetric s m).inbox = s.inbox := by
  simp only [Analytics.UpsertDailyMetric]
  split_ifs <;> rfl

theorem upsertHourly_inbox (s : Analytics.State) (m : Analytics.HourlyMetric) :
    (Analytics.UpsertHourlyMetric s m).inbox = s.inbox := by
  simp only [Analytics.UpsertHourlyMetric]
  split_ifs <;> rfl

theorem upsertSnapshot_inbox (s : Analytics.State) (m : Analytics.UserSnapshot) :
    (Analytics.UpsertUserSnapshot s m).inbox = s.inbox := by
  simp only [Analytics.UpsertUserSnapshot]
  split_ifs <;> rfl

theorem updateUserSnapshot_inbox (s : Analytics.State)
    (ev : Analytics.LedgerEntryCreatedEvent) :
    (Analytics.updateUserSnapshot s ev).inbox = s.inbox := by
  simp only [Analytics.updateUserSnapshot]
  split_ifs <;> simp [upsertSnapshot_inbox]

theorem processEvent_inbox (s : Analytics.State)
    (ev : Analytics.LedgerEntryCreatedEvent) :
    (Analytics.processEvent s ev).inbox = s.inbox := by
  simp only [Analytics.processEvent]
  rw [updateUserSnapshot_inbox, upsertHourly_inbox, upsertDaily_inbox]

/-! ## Claim theorems -/

/-- **C2** — `CreateLedgerEntries` is idempotent: whenever any ledger
entries already exist for the given `transaction_id`, it returns them
unchanged and creates no new ledger entries and no new outbox rows (the
state is returned untouched). -/
theorem c2_ledger_record_idempotent (req : Ledger.CreateLedgerEntriesRequest)
    (s : Ledger.State)
    (h : Ledger.GetEntriesByTransaction s req.transactionId ≠ []) :
    Ledger.CreateLedgerEntries req s =
      (.ok (Ledger.GetEntriesByTransaction s req.transactionId), s) := by
  simp only [Ledger.CreateLedgerEntries]
  rw [if_pos h]

/-- Witness for C2: a ledger holding one entry for transaction `t9`
returns exactly that entry and changes nothing on a replay. -/
theorem c2_ledger_record_idempotent_witness :
    Ledger.CreateLedgerEntries
        ⟨"t9", "w1", "w2", "10.0000", "USD", "replay"⟩ Fx.lsE =
      (.ok (Ledger.GetEntriesByTransaction Fx.lsE "t9"), Fx.lsE) :=
  c2_ledger_record_idempotent ⟨"t9", "w1", "w2", "10.0000", "USD", "replay"⟩
    Fx.lsE (by decide)

/-- **C4**, counterexample — the claim says the debit running balance is
`max(0, from_balance - amount)`. On an empty ledger (`from_balance =
"0.0000"`) and amount `50.0000` the code records `-50.0000`, while the
claimed clamped value is `0.0000`. -/
theorem c4_debit_balance_not_clamped :
    ((Ledger.CreateLedgerEntries Fx.reqL Fx.ls0).1.map
        (fun es => es.map (fun e => e.balance))) = .ok ["-50.0000", "50.0000"] ∧
    Ledger.GetLatestBalance Fx.ls0 "w1" = "0.0000" ∧
    formatFixed4 (specDebitBalanceClamped ⟨0, 1⟩ ⟨500000, 10000⟩) = "0.0000" ∧
    ("-50.0000" : String) ≠ "0.0000" := by
  decide

/-- **C4**, amended — when no entries exist for the transaction and the
balances and amount parse, recording succeeds (even when `from_balance <
amount`: the subtraction is permissive and there is **no** `max(0, ·)`
clamp) and writes a debit entry whose running balance is the `big.Float`
value of `from_balance - amount` (possibly negative) and a credit entry
with `to_balance + amount`, appending both entries and two outbox rows. -/
theorem c4_ledger_running_balances (req : Ledger.CreateLedgerEntriesRequest)
    (s : Ledger.State) (fv tv av : MQ)
    (h : Ledger.GetEntriesByTransaction s req.transactionId = [])
    (hf : parseBig64 (Ledger.GetLatestBalance s req.fromWalletId) = some fv)
    (ht : parseBig64 (Ledger.GetLatestBalance s req.toWalletId) = some tv)
    (ha : parseBig64 req.amount = some av) :
    ∃ d c : Ledger.LedgerEntry,
      (Ledger.CreateLedgerEntries req s).1 = .ok [d, c] ∧
      (Ledger.CreateLedgerEntries req s).2.entries = s.entries ++ [d, c] ∧
      (Ledger.CreateLedgerEntries req s).2.outbox.length = s.outbox.length + 2 ∧
      d.entryType = "debit" ∧ d.walletId = req.fromWalletId ∧
      d.balance = formatFixed4 (roundPrec 64 (fv.sub av)) ∧
      c.entryType = "credit" ∧ c.walletId = req.toWalletId ∧
      c.balance = formatFixed4 (roundPrec 64 (tv.add av)) := by
  have hsub : Ledger.subtractAmounts (Ledger.GetLatestBalance s req.fromWalletId)
      req.amount = .ok (formatFixed4 (roundPrec 64 (fv.sub av))) := by
    simp [Ledger.subtractAmounts, hf, ha]
  have hadd : Ledger.addAmounts (Ledger.GetLatestBalance s req.toWalletId)
      req.amount = .ok (formatFixed4 (roundPrec 64 (tv.add av))) := by
    simp [Ledger.addAmounts, ht, ha]
  refine ⟨{ id := "le-" ++ toString s.nextId
            transactionId := req.transactionId
            walletId := req.fromWalletId
            entryType := "debit"
            amount := req.amount
            currency := req.currency
            balance := formatFixed4 (roundPrec 64 (fv.sub av))
            description := "Transfer to " ++ req.toWalletId ++ ": " ++ req.description
            metadata := [("to_wallet_id", req.toWalletId),
                         ("balance_before", Ledger.GetLatestBalance s req.fromWalletId),
                         ("balance_after", formatFixed4 (roundPrec 64 (fv.sub av)))]
            createdAt := s.now },
          { id := "le-" ++ toString (s.nextId + 1)
            transactionId := req.transactionId
            walletId := req.toWalletId
            entryType := "credit"
            amount := req.amount
            currency := req.currency
            balance := formatFixed4 (roundPrec 64 (tv.add av))
            description := "Transfer from " ++ req.fromWalletId ++ ": " ++ req.description
            metadata := [("from_wallet_id", req.fromWalletId),
                         ("balance_before", Ledger.GetLatestBalance s req.toWalletId),
                         ("balance_after", formatFixed4 (roundPrec 64 (tv.add av)))]
            createdAt := s.now + 1 }, ?_⟩
  simp [Ledger.CreateLedgerEntries, h, hsub, hadd]

/-- Witness for C4 (amended): on the empty ledger, recording transaction
`t1` with insufficient `from_balance` still succeeds, with debit balance
`0 - 50` and credit balance `0 + 50`. -/
theorem c4_ledger_running_balances_witness :
    ∃ d c : Ledger.LedgerEntry,
      (Ledger.CreateLedgerEntries Fx.reqL Fx.ls0).1 = .ok [d, c] ∧
      (Ledger.CreateLedgerEntries Fx.reqL Fx.ls0).2.entries =
        Fx.ls0.entries ++ [d, c] ∧
      (Ledger.CreateLedgerEntries Fx.reqL Fx.ls0).2.outbox.length =
        Fx.ls0.outbox.length + 2 ∧
      d.entryType = "debit" ∧ d.walletId = Fx.reqL.fromWalletId ∧
      d.balance = formatFixed4 (roundPrec 64 ((MQ.ofInt 0).sub Fx.av50)) ∧
      c.entryType = "credit" ∧ c.walletId = Fx.reqL.toWalletId ∧
      c.balance = formatFixed4 (roundPrec 64 ((MQ.ofInt 0).add Fx.av50)) :=
  c4_ledger_running_balances Fx.reqL Fx.ls0 (MQ.ofInt 0) (MQ.ofInt 0)
    Fx.av50 (by decide) (by decide) (by decide) (by decide)

/-- **C5**, counterexample — an event whose only inbox row has
`status=failed` is **skipped** on redelivery (the state is returned
unchanged and no aggregate is updated), although no `status=processed`
row exists; the claim says such an event is re-processed. -/
theorem c5_failed_event_not_reprocessed :
    Analytics.ProcessLedgerEntryCreated Fx.ev1 Fx.asF = (.ok (), Fx.asF) ∧
    Fx.asF.inbox.filter
      (fun l => l.eventId = "e1" && l.status = "processed") = [] ∧
    Fx.asF.inbox.filter
      (fun l => l.eventId = "e1" && l.status = "failed") = [Fx.failedRow] ∧
    Fx.asF.daily = [] ∧
    (Analytics.ProcessLedgerEntryCreated Fx.ev1 Fx.asF).2.daily = [] := by
  decide

/-- **C5**, amended — the analytics consumer skips an incoming event iff
an inbox row for that `event_id` exists with **any** status (the lookup
has no status filter): a previously failed event is permanently skipped,
and only an event with no inbox row at all has its aggregate updates
applied and a `status=processed` row inserted. -/
theorem c5_skip_iff_any_inbox_row :
    (∀ (ev : Analytics.LedgerEntryCreatedEvent) (s : Analytics.State),
      Analytics.IsEventProcessed s ev.eventId = true →
      Analytics.ProcessLedgerEntryCreated ev s = (.ok (), s)) ∧
    (∀ (ev : Analytics.LedgerEntryCreatedEvent) (s : Analytics.State),
      Analytics.IsEventProcessed s ev.eventId = false →
      Analytics.ProcessLedgerEntryCreated ev s =
        (.ok (), { Analytics.processEvent s ev with
          inbox := s.inbox ++ [Fx.processedLog ev] })) := by
  constructor
  · intro ev s h
    simp [Analytics.ProcessLedgerEntryCreated, h]
  · intro ev s h
    simp [Analytics.ProcessLedgerEntryCreated, h, Fx.processedLog,
      processEvent_inbox]

/-- Witness for C5 (amended): the failed-row state skips `e1`; the empty
state processes `e2` and gains a `processed` inbox row. -/
theorem c5_skip_iff_any_inbox_row_witness :
    Analytics.ProcessLedgerEntryCreated Fx.ev1 Fx.asF = (.ok (), Fx.asF) ∧
    Analytics.ProcessLedgerEntryCreated Fx.ev2 ⟨[], [], [], []⟩ =
      (.ok (), { Analytics.processEvent ⟨[], [], [], []⟩ Fx.ev2 with
        inbox := [Fx.processedLog Fx.ev2] }) :=
  ⟨c5_skip_iff_any_inbox_row.1 Fx.ev1 Fx.asF (by decide),
   c5_skip_iff_any_inbox_row.2 Fx.ev2 ⟨[], [], [], []⟩ (by decide)⟩

/-- **C6** — the claim (and the spec) require exact arbitrary-precision
decimal arithmetic with no native floating point. `CalculateBatchTotal`
parses and accumulates with native `float64` (despite its own comment
"Use big.Float for precise decimal arithmetic"), so a one-item batch of
`9007199254740993` (a valid amount, > 2^53) totals to
`9007199254740992.0000`; the superseded ledger float64 `addAmounts` loses
`9007199254740993 + 1`; and even the wallet's `big.Float` helpers are
binary (not decimal) arithmetic at precision 64, losing
`18446744073709551616 + 0.0001`. -/
theorem c6_monetary_arithmetic_not_exact :
    Txn.CalculateBatchTotal [⟨"wa", "9007199254740993", "x"⟩] =
      .ok "9007199254740992.0000" ∧
    specExactBatchTotal [⟨"wa", "9007199254740993", "x"⟩] =
      some "9007199254740993.0000" ∧
    Ledger.addAmountsF64 "9007199254740993" "1" = .ok "9007199254740992.0000" ∧
    specExactAdd "9007199254740993" "1" = some "9007199254740994.0000" ∧
    WalletSvc.addAmounts "18446744073709551616" "0.0001" =
      .ok "18446744073709551616.0000" ∧
    specExactAdd "18446744073709551616" "0.0001" =
      some "18446744073709551616.0001" := by
  decide

/-- **C3** — the batch in scenario S4 (`W_src = 100.0000`, items
`[(W_a, 50.00), (W_nonexistent, 25.00)]`, key `bk`) fails as claimed, and
the transaction service's own database does roll back (no
`batch_transactions` row, no `transactions` rows, key `bk` not set) —
but the source wallet's balance is **not** unchanged: the item-0 wallet
transfer was a remote call that had already committed in the wallet
service, leaving `W_src` at `50.0000` instead of `100.0000`. -/
theorem c3_batch_not_atomic_across_services :
    isOkE (Txn.CreateBatchTransfer Fx.reqB Fx.gB).1 = false ∧
    (Txn.CreateBatchTransfer Fx.reqB Fx.gB).2.batches = [] ∧
    (Txn.CreateBatchTransfer Fx.reqB Fx.gB).2.txns = [] ∧
    "bk" ∉ (Txn.CreateBatchTransfer Fx.reqB Fx.gB).2.txnIdem ∧
    WalletSvc.getWalletRow Fx.gB.wsvc "wsrc" =
      some ⟨"wsrc", "u1", "USD", "100.0000", "active"⟩ ∧
    WalletSvc.getWalletRow (Txn.CreateBatchTransfer Fx.reqB Fx.gB).2.wsvc "wsrc" =
      some ⟨"wsrc", "u1", "USD", "50.0000", "active"⟩ ∧
    WalletSvc.getWalletRow (Txn.CreateBatchTransfer Fx.reqB Fx.gB).2.wsvc "wa" =
      some ⟨"wa", "u2", "USD", "50.0000", "active"⟩ := by
  decide

/-- **C8**, counterexample — `"00"` matches the amount regex, has numeric
value zero, yet `ValidateAmount` accepts it: the zero check compares
against five literal spellings only. The claim says every zero-valued
string is rejected. -/
theorem c8_zero_spelling_accepted :
    Txn.ValidateAmount "00" = .ok () ∧
    (parseDec "00").map (fun q => q.qeq (MQ.ofInt 0)) = some true := by
  decide

/-- **C1** — for every P2P transfer request whose execution succeeds,
exactly one `transactions` row carries its idempotency key, the immediate
replay is rejected as a duplicate with no state change, and executing the
request `k` times (for any `k ≥ 1`) leaves exactly the state of executing
it once — in particular one balance delta. -/
theorem c1_p2p_transfer_idempotent (req : Txn.CreateTransactionRequest)
    (g : Txn.GState) (t : Txn.TxnRow)
    (h : (Txn.CreateP2PTransfer req g).1 = .ok t) :
    countTxnRowsWithKey (Txn.CreateP2PTransfer req g).2 req.idempotencyKey = 1 ∧
    Txn.CreateP2PTransfer req (Txn.CreateP2PTransfer req g).2 =
      (.error "duplicate request: idempotency key already used",
        (Txn.CreateP2PTransfer req g).2) ∧
    (∀ k, 1 ≤ k → iterP2P req k g = (Txn.CreateP2PTransfer req g).2) := by
  obtain ⟨r, g1, hres⟩ : ∃ r g1, Txn.CreateP2PTransfer req g = (r, g1) :=
    ⟨_, _, rfl⟩
  rw [hres] at h
  have hr : r = .ok t := h
  subst hr
  obtain ⟨hval, hmem, hany, row, hrk, htx⟩ :=
    p2p_success_shape req g t g1 hres
  have hdup := p2p_duplicate req g1 hval hmem
  have hfil : g.txns.filter (fun r => r.idempotencyKey = req.idempotencyKey) = [] := by
    rw [List.filter_eq_nil_iff]
    intro a ha
    have := List.any_eq_false.mp hany a ha
    simpa using this
  simp only [hres]
  refine ⟨?_, hdup, ?_⟩
  · rw [countTxnRowsWithKey, htx, List.filter_append, hfil]
    simp [hrk]
  · intro k hk
    induction k, hk using Nat.le_induction with
    | base => simp [iterP2P, hres]
    | succ n hn ih => simp [iterP2P, ih, hdup]

/-- Witness for C1: the S1-style transfer of `50.00` from `w1` to `w2`
under key `k1` succeeds; the replay is a duplicate, triple execution
equals single execution, and exactly one row carries `k1`. -/
theorem c1_p2p_transfer_idempotent_witness :
    countTxnRowsWithKey (Txn.CreateP2PTransfer Fx.reqP Fx.g0).2
      Fx.reqP.idempotencyKey = 1 ∧
    Txn.CreateP2PTransfer Fx.reqP (Txn.CreateP2PTransfer Fx.reqP Fx.g0).2 =
      (.error "duplicate request: idempotency key already used",
        (Txn.CreateP2PTransfer Fx.reqP Fx.g0).2) ∧
    iterP2P Fx.reqP 3 Fx.g0 = (Txn.CreateP2PTransfer Fx.reqP Fx.g0).2 :=
  have h := c1_p2p_transfer_idempotent Fx.reqP Fx.g0
    ⟨"txn-0", "w1", "w2", "50.00", "USD", "p2p", "completed", "", "k1",
      none, none, none⟩ (by decide)
  ⟨h.1, h.2.1, h.2.2 3 (by decide)⟩

/-- **C8**, amended — `ValidateAmount` accepts a string iff (after
trimming) it matches `^\d+(\.\d\x7b1,4\x7d)?$` and is not one of the five
literal spellings `"0"`, `"0.0"`, `"0.00"`, `"0.000"`, `"0.0000"` (so
zero-valued strings in other spellings, such as `"00"`, are accepted);
every accepted string denotes a nonnegative multiple of `1/10000`. -/
theorem c8_amount_validation (s : String) :
    (Txn.ValidateAmount s = .ok () ↔
      (amountRegexAccepts (goTrim s) = true ∧
        goTrim s ∉ (["0", "0.0", "0.00", "0.000", "0.0000"] : List String))) ∧
    (Txn.ValidateAmount s = .ok () →
      ∃ (n : Nat) (q : MQ), parseDec (goTrim s) = some q ∧
        q.qeq ⟨(n : Int), 10000⟩ = true) := by
  have hiff : Txn.ValidateAmount s = .ok () ↔
      (amountRegexAccepts (goTrim s) = true ∧
        goTrim s ∉ (["0", "0.0", "0.00", "0.000", "0.0000"] : List String)) := by
    simp only [Txn.ValidateAmount]
    split_ifs with h1 h2 h3
    · constructor
      · intro h
        exact absurd h (by simp)
      · rintro ⟨hr, -⟩
        rw [h1] at hr
        exact absurd hr (by decide)
    · constructor
      · intro h
        exact absurd h (by simp)
      · rintro ⟨-, hnm⟩
        exact absurd (by simpa using h3) hnm
    · constructor
      · intro _
        refine ⟨h2, ?_⟩
        simpa using h3
      · intro _
        rfl
    · constructor
      · intro h
        exact absurd h (by simp)
      · rintro ⟨hr, -⟩
        exact absurd hr h2
  exact ⟨hiff, fun h => parseDec_of_regex (goTrim s) (hiff.mp h).1⟩

/-- Witness for C8 (amended): `100.12` is accepted and denotes
`1001200 / 10000`. -/
theorem c8_amount_validation_witness :
    ∃ (n : Nat) (q : MQ), parseDec (goTrim "100.12") = some q ∧
      q.qeq ⟨(n : Int), 10000⟩ = true :=
  (c8_amount_validation "100.12").2 (by decide)

/-- **C7**, counterexample — the claim says both the distributed locks
and the row-level `FOR UPDATE` locks are taken in ascending wallet-id
order. For a transfer from `wB` to `wA` the row locks are taken in the
order `[wB, wA]`, not the ascending `[wA, wB]`. -/
theorem c7_row_locks_not_sorted :
    WalletSvc.rowLockOrder "wB" "wA" = ["wB", "wA"] ∧
    specAscendingPair "wB" "wA" = ["wA", "wB"] ∧
    WalletSvc.rowLockOrder "wB" "wA" ≠ specAscendingPair "wB" "wA" := by
  decide

/-- **C7**, amended — only the distributed (KV) locks are acquired in
ascending wallet-id order: `kvLockOrder` equals the sorted pair and is the
same sequence for both transfer directions, while the row-level
`FOR UPDATE` locks are always taken source-first (`[from, to]`). -/
theorem c7_lock_orders (f t : String) :
    WalletSvc.kvLockOrder f t = specAscendingPair f t ∧
    WalletSvc.kvLockOrder f t = WalletSvc.kvLockOrder t f ∧
    WalletSvc.rowLockOrder f t = [f, t] := by
  refine ⟨?_, ?_, rfl⟩ <;>
  · simp only [WalletSvc.kvLockOrder, specAscendingPair]
    cases htf : goStringLess t f with
    | true =>
      have hft := goStringLess_asymm t f htf
      have hne : f ≠ t := by
        intro he
        subst he
        rw [show goStringLess f f = false from charListLt_irrefl f.data] at htf
        exact Bool.noConfusion htf
      simp [hft, htf, hne]
    | false =>
      cases hft : goStringLess f t with
      | true => simp [hft, htf]
      | false =>
        have he := goStringLess_conn f t hft htf
        subst he
        simp [hft]

/-- **C9** — a scheduled-transfer dispatcher cycle selects at most 100
rows, all with `status = 'scheduled'` and a `scheduled_at` no later than
now, ordered by `scheduled_at` ascending; and (when row ids are unique, as
the primary key guarantees) every selected row ends the cycle either
`completed` with `processed_at` set, the derived idempotency key
`scheduled-{transaction_id}` recorded by the wallet service and one
`transaction.completed` outbox row, or `failed` with a `failure_reason`
set, `processed_at` set and no success event emitted. -/
theorem c9_scheduled_dispatch (g : Txn.GState)
    (hnd : (g.txns.map (fun t => t.id)).Nodup) :
    (Txn.GetScheduledTransactions g 100).length ≤ 100 ∧
    List.Sorted Txn.schedLE (Txn.GetScheduledTransactions g 100) ∧
    (∀ t ∈ Txn.GetScheduledTransactions g 100,
      t ∈ g.txns ∧ t.status = "scheduled" ∧
        ∃ ts, t.scheduledAt = some ts ∧ ts ≤ g.now) ∧
    (∀ t ∈ Txn.GetScheduledTransactions g 100,
      dispatchedOk g.now (countCompletedEvents g t.id)
        (Txn.ProcessScheduledTransfers g).2 t ∨
      dispatchedFailed g.now (countCompletedEvents g t.id)
        (Txn.ProcessScheduledTransfers g).2 t) := by
  have hfsub := List.filter_sublist (p := fun t : Txn.TxnRow =>
    t.status = "scheduled" &&
      match t.scheduledAt with
      | some ts => ts ≤ g.now
      | none => false) g.txns
  have hperm := List.perm_insertionSort Txn.schedLE (g.txns.filter (fun t =>
    t.status = "scheduled" &&
      match t.scheduledAt with
      | some ts => ts ≤ g.now
      | none => false))
  have htake := List.take_sublist 100 (List.insertionSort Txn.schedLE
    (g.txns.filter (fun t =>
      t.status = "scheduled" &&
        match t.scheduledAt with
        | some ts => ts ≤ g.now
        | none => false)))
  have hmemL : ∀ t ∈ Txn.GetScheduledTransactions g 100,
      t ∈ g.txns.filter (fun t =>
        t.status = "scheduled" &&
          match t.scheduledAt with
          | some ts => ts ≤ g.now
          | none => false) := by
    intro t ht
    exact hperm.mem_iff.mp (htake.subset ht)
  have hsel : ∀ t ∈ Txn.GetScheduledTransactions g 100,
      t ∈ g.txns ∧ t.status = "scheduled" ∧
        ∃ ts, t.scheduledAt = some ts ∧ ts ≤ g.now := by
    intro t ht
    obtain ⟨hmem, hp⟩ := List.mem_filter.mp (hmemL t ht)
    simp only [Bool.and_eq_true, decide_eq_true_eq] at hp
    refine ⟨hmem, hp.1, ?_⟩
    cases hts : t.scheduledAt with
    | none =>
      rw [hts] at hp
      exact absurd hp.2 (by simp)
    | some ts =>
      rw [hts] at hp
      exact ⟨ts, rfl, by simpa using hp.2⟩
  refine ⟨List.length_take_le 100 _, ?_, hsel, ?_⟩
  · exact (List.sorted_insertionSort Txn.schedLE _).sublist htake
  · have hndL : ((Txn.GetScheduledTransactions g 100).map
        (fun t => t.id)).Nodup := by
      have h1 : ((g.txns.filter (fun t =>
          t.status = "scheduled" &&
            match t.scheduledAt with
            | some ts => ts ≤ g.now
            | none => false)).map (fun t => t.id)).Nodup :=
        hnd.sublist (hfsub.map (fun t => t.id))
      have h2 := (hperm.map (fun t : Txn.TxnRow => t.id)).nodup_iff.mpr h1
      exact h2.sublist (htake.map (fun t => t.id))
    intro t ht
    exact processLoop_post (Txn.GetScheduledTransactions g 100) g 0 hndL t ht
      (find?_self_of_nodup g.txns t (hsel t ht).1 hnd)

/-- **C9** witness — at the fixture state two rows are due: the cycle
keeps the selection bounds and settles each selected row. -/
theorem c9_scheduled_dispatch_witness :
    (Fx.gS.txns.map (fun t => t.id)).Nodup ∧
    ((Txn.GetScheduledTransactions Fx.gS 100).length ≤ 100 ∧
    List.Sorted Txn.schedLE (Txn.GetScheduledTransactions Fx.gS 100) ∧
    (∀ t ∈ Txn.GetScheduledTransactions Fx.gS 100,
      t ∈ Fx.gS.txns ∧ t.status = "scheduled" ∧
        ∃ ts, t.scheduledAt = some ts ∧ ts ≤ Fx.gS.now) ∧
    (∀ t ∈ Txn.GetScheduledTransactions Fx.gS 100,
      dispatchedOk Fx.gS.now (countCompletedEvents Fx.gS t.id)
        (Txn.ProcessScheduledTransfers Fx.gS).2 t ∨
      dispatchedFailed Fx.gS.now (countCompletedEvents Fx.gS t.id)
        (Txn.ProcessScheduledTransfers Fx.gS).2 t)) :=
  ⟨by decide, c9_scheduled_dispatch Fx.gS (by decide)⟩

/-- **C10** — the wallet engine's `Transfer` primitive never compares the
currencies of the two wallets: for any two active wallets of different
currencies where the source has sufficient funds (and the request is
well-formed, the key fresh and the locks free), `Transfer` succeeds and
moves the balance across currencies; the `CurrencyMismatch` rule exists
only in the transaction engine, whose `CreateP2PTransfer` rejects the same
pair before the remote call. -/
theorem c10_wallet_transfer_ignores_currency :
    (∀ (s : WalletSvc.State) (req : WalletSvc.TransferRequest)
       (fw tw : WalletSvc.Wallet) (nfb ntb : String),
      WalletSvc.getWalletRow s req.fromWalletID = some fw →
      WalletSvc.getWalletRow s req.toWalletID = some tw →
      fw.status = "active" → tw.status = "active" →
      fw.currency ≠ tw.currency →
      Txn.hasSufficientBalance fw.balance req.amount = true →
      req.amount ≠ "" → req.idempotencyKey ≠ "" →
      req.idempotencyKey ∉ s.idem →
      (∀ id ∈ WalletSvc.kvLockOrder req.fromWalletID req.toWalletID,
        ("wallet:" ++ id) ∉ s.locks) →
      WalletSvc.subtractAmounts fw.balance req.amount = .ok nfb →
      WalletSvc.addAmounts tw.balance req.amount = .ok ntb →
      (WalletSvc.Transfer req s).1 = .ok () ∧
      WalletSvc.getWalletRow (WalletSvc.Transfer req s).2 req.fromWalletID =
        some { fw with balance := nfb } ∧
      WalletSvc.getWalletRow (WalletSvc.Transfer req s).2 req.toWalletID =
        some { tw with balance := ntb }) ∧
    (∀ (g : Txn.GState) (req : Txn.CreateTransactionRequest)
       (fw tw : WalletSvc.Wallet),
      Txn.ValidateCreateTransactionRequest req = .ok () →
      req.idempotencyKey ∉ g.txnIdem →
      Txn.getWalletFromService g req.fromWalletID = .ok fw →
      Txn.getWalletFromService g req.toWalletID = .ok tw →
      fw.currency ≠ tw.currency →
      Txn.CreateP2PTransfer req g =
        (.error ("currency mismatch: " ++ fw.currency ++ " != " ++ tw.currency),
          g)) := by
  constructor
  · intro s req fw tw nfb ntb hf ht hfa hta hcur hsb hane hkne hkid hlocks hsub hadd
    have hfid : fw.id = req.fromWalletID := getWalletRow_id s _ fw hf
    have htid : tw.id = req.toWalletID := getWalletRow_id s _ tw ht
    have hne : req.fromWalletID ≠ req.toWalletID := by
      intro he
      rw [he, ht] at hf
      injection hf with h
      exact hcur (by rw [h])
    have hlock3 : (WalletSvc.kvLockOrder req.fromWalletID req.toWalletID).any
        (fun id => decide (("wallet:" ++ id) ∈ s.locks)) = false := by
      rw [List.any_eq_false]
      intro x hx
      simpa using hlocks x hx
    have hbody : ∀ u, WalletSvc.getWalletRow
        ((WalletSvc.Transfer req s).2) u =
        WalletSvc.getWalletRow
          (WalletSvc.updateBalance (WalletSvc.updateBalance s req.fromWalletID nfb)
            req.toWalletID ntb) u ∧
        (WalletSvc.Transfer req s).1 = .ok () := by
      intro u
      constructor <;>
      · simp only [WalletSvc.Transfer, WalletSvc.transferTxBody, hf, ht, hfa,
          hta, hsb, hsub, hadd, hane, hkne, hlock3]
        simp [hkid, WalletSvc.getWalletRow]
    have hne2 : req.toWalletID ≠ req.fromWalletID := fun he => hne he.symm
    refine ⟨(hbody "").2, ?_, ?_⟩
    · rw [(hbody req.fromWalletID).1]
      rw [getWalletRow_updateBalance, getWalletRow_updateBalance, hf]
      simp [hfid, hne]
    · rw [(hbody req.toWalletID).1]
      rw [getWalletRow_updateBalance, getWalletRow_updateBalance, ht]
      simp [htid, hne2]
  · intro g req fw tw hval hkid hf ht hcur
    simp only [Txn.CreateP2PTransfer, hval, hf, ht]
    simp [hkid, hcur]

/-- Witness for C10: `Transfer` moves `50.00` from the USD wallet `w1` to
the EUR wallet `w3`; `CreateP2PTransfer` rejects the same pair with a
currency-mismatch error. -/
theorem c10_wallet_transfer_ignores_currency_witness :
    ((WalletSvc.Transfer Fx.reqT Fx.ws0).1 = .ok () ∧
      WalletSvc.getWalletRow (WalletSvc.Transfer Fx.reqT Fx.ws0).2
        Fx.reqT.fromWalletID = some { Fx.wUsd1 with balance := "450.0000" } ∧
      WalletSvc.getWalletRow (WalletSvc.Transfer Fx.reqT Fx.ws0).2
        Fx.reqT.toWalletID = some { Fx.wEur with balance := "150.0000" }) ∧
    Txn.CreateP2PTransfer Fx.reqPMismatch Fx.g0 =
      (.error ("currency mismatch: " ++ Fx.wUsd1.currency ++ " != " ++
        Fx.wEur.currency), Fx.g0) :=
  ⟨c10_wallet_transfer_ignores_currency.1 Fx.ws0 Fx.reqT Fx.wUsd1 Fx.wEur
      "450.0000" "150.0000" (by decide) (by decide) (by decide) (by decide)
      (by decide) (by decide) (by decide) (by decide) (by decide) (by decide)
      (by decide) (by decide),
   c10_wallet_transfer_ignores_currency.2 Fx.g0 Fx.reqPMismatch Fx.wUsd1 Fx.wEur
      (by decide) (by decide) (by decide) (by decide) (by decide)⟩

end Mercuria
